import Mathlib

/-!
Verification of the devicetree tooling (dtlib.py / edtlib.py) against its
specification.  The Python sources are shallowly embedded: byte strings
become lists of naturals, mutable trees become functional updates, and
fallible code returns Except / Option.  Definitions follow the source
line by line; spec-level definitions (used for refinement statements) are
marked as such.
-/

namespace Edt

/-! ### Embedding of edtlib helpers (address translation and nexus mapping)

Nodes are modelled bottom-up: each node carries its properties (name to raw
byte value) and an optional parent, mirroring the parent back-references the
Python code follows.  A missing parent where the source would dereference
one (an AttributeError) is modelled as a failing Option / error result. -/

/-- dtlib.to_num with length=None, unsigned: big-endian value of a byte string. -/
def to_num (data : List Nat) : Nat := data.foldl (fun acc b => acc * 256 + b) 0

/-- A devicetree node as edtlib's helpers see it: name, properties
(property name to raw byte value), and the parent back-reference. -/
inductive PNode where
  | mk (name : String) (props : List (String × List Nat)) (parent : Option PNode)

/-- The node's property list. -/
def PNode.props : PNode → List (String × List Nat)
  | .mk _ ps _ => ps

/-- The node's parent back-reference. -/
def PNode.parent : PNode → Option PNode
  | .mk _ _ p => p

/-- The node's name. -/
def PNode.name : PNode → String
  | .mk n _ _ => n

/-- node.props.get(name) / name in node.props. -/
def getProp (node : PNode) (name : String) : Option (List Nat) :=
  (node.props.find? (fun kv => kv.1 = name)).map (·.2)

/-- Property.to_num(): the 4-byte length check, then big-endian value. -/
def prop_to_num (v : List Nat) : Option Nat :=
  if v.length = 4 then some (to_num v) else none

/-- edtlib._address_cells: reads #address-cells on the parent, defaulting
to 2; none models the crash when the node has no parent or the property
fails its 4-byte check. -/
def address_cells (node : PNode) : Option Nat := do
  let parent ← node.parent
  match getProp parent "#address-cells" with
  | some v => prop_to_num v
  | none => pure 2

/-- edtlib._size_cells: reads #size-cells on the parent, defaulting to 1. -/
def size_cells (node : PNode) : Option Nat := do
  let parent ← node.parent
  match getProp parent "#size-cells" with
  | some v => prop_to_num v
  | none => pure 1

/-- Splitting a raw value into size-byte chunks (edtlib._slice); none when
the length is not an exact multiple of the chunk size (or size is 0,
where Python would raise). -/
def sliceBytes (raw : List Nat) (size : Nat) : Option (List (List Nat)) :=
  if size = 0 then none
  else if raw.length % size ≠ 0 then none
  else some (go raw size (raw.length / size + 1))
where
  go (raw : List Nat) (size fuel : Nat) : List (List Nat) :=
    match fuel with
    | 0 => []
    | fuel + 1 => if raw.isEmpty then [] else raw.take size :: go (raw.drop size) size fuel

/-- The scan over a 'ranges' value (the for-loop of edtlib._translate):
returns the translated parent-space address for the first triple whose
child window contains addr, or none when no window matches. -/
def findRange (addr cac pac : Nat) : List (List Nat) → Option Nat
  | [] => none
  | raw :: rest =>
    let child_addr := to_num (raw.take (4 * cac))
    let child_len := to_num (raw.drop (4 * (cac + pac)))
    if child_addr ≤ addr ∧ addr ≤ child_addr + child_len then
      some (to_num ((raw.drop (4 * cac)).take (4 * pac)) + addr - child_addr)
    else findRange addr cac pac rest

/-- edtlib._translate: recursively translates addr on node to the address
spaces of its ancestors by looking at 'ranges' properties.  none models
Python raising (missing parent, bad cell counts, or a 'ranges' length
that is not a multiple of the entry size). -/
def translate (addr : Nat) : PNode → Option Nat
  | .mk _ _ none => none
  | .mk nm ps (some parent) =>
    let node := PNode.mk nm ps (some parent)
    match getProp parent "ranges" with
    | none => some addr
    | some rangesVal =>
      if rangesVal.isEmpty then translate addr parent
      else
        match address_cells node, address_cells parent, size_cells node with
        | some cac, some pac, some csc =>
          match sliceBytes rangesVal (4 * (cac + pac + csc)) with
          | none => none
          | some chunks =>
            match findRange addr cac pac chunks with
            | some newAddr => translate newAddr parent
            | none => some addr
        | _, _, _ => none

/-! Nexus mapping (edtlib._map and helpers).  Errors are Except String;
the messages summarise the source's _err messages.  The phandle2node
dictionary of the tree is passed as an explicit association list. -/

/-- bytes.rjust(n, fill): left-pad to length n with the fill byte. -/
def rjust (b : List Nat) (n fill : Nat) : List Nat :=
  List.replicate (n - b.length) fill ++ b

/-- edtlib._and: bitwise AND, padding with ones on the left. -/
def andB (b1 b2 : List Nat) : List Nat :=
  let m := max b1.length b2.length
  (List.zip (rjust b1 m 0xFF) (rjust b2 m 0xFF)).map (fun p => Nat.land p.1 p.2)

/-- edtlib._or: bitwise OR, padding with zeros on the left. -/
def orB (b1 b2 : List Nat) : List Nat :=
  let m := max b1.length b2.length
  (List.zip (rjust b1 m 0) (rjust b2 m 0)).map (fun p => Nat.lor p.1 p.2)

/-- edtlib._not: bytewise complement (~x & 0xFF). -/
def notB (b : List Nat) : List Nat := b.map (fun x => 255 - x % 256)

/-- Python's b[-n:] slice on bytes: the last n bytes, except that n = 0
yields the whole string (b[-0:] is b[0:]). -/
def pySliceLast (n : Nat) (xs : List Nat) : List Nat :=
  if n = 0 then xs else xs.drop (xs.length - n)

/-- The phandle2node dictionary of the tree (dt.phandle2node). -/
structure EdtCtx where
  phandle2node : List (Nat × PNode)

/-- Dictionary lookup in phandle2node. -/
def EdtCtx.phGet (ctx : EdtCtx) (ph : Nat) : Option PNode :=
  (ctx.phandle2node.find? (fun kv => kv.1 = ph)).map (·.2)

/-- edtlib._mask: AND the child specifier with the <prefix>-map-mask
property, if present. -/
def mask (pfx : String) (parent : PNode) (child_spec : List Nat) :
    Except String (List Nat) :=
  match getProp parent (pfx ++ "-map-mask") with
  | none => .ok child_spec
  | some m =>
    if m.length ≠ child_spec.length then
      .error ("expected map-mask to be " ++ toString child_spec.length ++ " bytes")
    else .ok (andB child_spec m)

/-- edtlib._pass_thru: result = (child-spec AND pass-thru) OR
(parent-spec AND NOT pass-thru), truncated (res[-len(parent_spec):]) to
the parent specifier's length. -/
def pass_thru (pfx : String) (parent : PNode) (child_spec parent_spec : List Nat) :
    Except String (List Nat) :=
  match getProp parent (pfx ++ "-map-pass-thru") with
  | none => .ok parent_spec
  | some pt =>
    if pt.length ≠ child_spec.length then
      .error ("expected map-pass-thru to be " ++ toString child_spec.length ++ " bytes")
    else
      .ok (pySliceLast parent_spec.length (orB (andB child_spec pt) (andB parent_spec (notB pt))))

mutual

/-- edtlib._map: resolve a (possibly nexus-indirected) specifier.  The
receiver parent either carries <pfx>-map (scan it) or must declare
<pfx>-controller (terminal: no mapping).  Recursion through mapped
phandles is bounded by fuel. -/
def map (fuel : Nat) (ctx : EdtCtx) (pfx : String) (child parent : PNode)
    (child_spec : List Nat) (specLen : PNode → Except String Nat) :
    Except String (PNode × List Nat) :=
  match fuel with
  | 0 => .error "out of fuel"
  | fuel + 1 =>
    match getProp parent (pfx ++ "-map") with
    | none =>
      if getProp parent (pfx ++ "-controller") = none then
        .error ("expected '" ++ pfx ++ "-controller' property on " ++ parent.name)
      else .ok (parent, child_spec)
    | some raw => do
      let masked ← mask pfx parent child_spec
      mapLoop fuel ctx pfx child parent child_spec masked specLen raw

/-- The row-scanning while loop of edtlib._map: consume
(child-spec-entry, phandle, parent-spec) records until one's child entry
equals the masked child specifier. -/
def mapLoop (fuel : Nat) (ctx : EdtCtx) (pfx : String) (child parent : PNode)
    (child_spec masked : List Nat) (specLen : PNode → Except String Nat)
    (raw : List Nat) : Except String (PNode × List Nat) :=
  match fuel with
  | 0 => .error "out of fuel"
  | fuel + 1 =>
    if raw.isEmpty then
      .error ("child specifier for " ++ child.name ++ " does not appear in the map")
    else if raw.length < child_spec.length then
      .error "bad value, missing or truncated child specifier"
    else
      let entry := raw.take child_spec.length
      let raw1 := raw.drop child_spec.length
      if raw1.length < 4 then .error "bad value, missing or truncated phandle"
      else
        let phandle := to_num (raw1.take 4)
        let raw2 := raw1.drop 4
        match ctx.phGet phandle with
        | none => .error "bad phandle in the map"
        | some map_parent => do
          let plen ← specLen map_parent
          if raw2.length < plen then
            .error "bad value, missing or truncated parent specifier"
          else
            let parent_spec := raw2.take plen
            let raw3 := raw2.drop plen
            if entry = masked then do
              let ps ← pass_thru pfx parent child_spec parent_spec
              map fuel ctx pfx parent map_parent ps specLen
            else mapLoop fuel ctx pfx child parent child_spec masked specLen raw3

end

/-- #interrupt-cells on the node itself (edtlib._interrupt_cells); the
Property.to_num 4-byte check is included. -/
def interrupt_cells (node : PNode) : Except String Nat :=
  match getProp node "#interrupt-cells" with
  | none => .error (node.name ++ " lacks #interrupt-cells")
  | some v =>
    match prop_to_num v with
    | none => .error "bad #interrupt-cells length"
    | some n => .ok n

/-- #gpio-cells on the node itself (edtlib._gpio_cells). -/
def gpio_cells (node : PNode) : Except String Nat :=
  match getProp node "#gpio-cells" with
  | none => .error (node.name ++ " lacks #gpio-cells")
  | some v =>
    match prop_to_num v with
    | none => .error "bad #gpio-cells length"
    | some n => .ok n

/-- own_address_cells (local helper of edtlib._map_interrupt): the
#address-cells property on the node itself, required. -/
def own_address_cells (node : PNode) : Except String Nat :=
  match getProp node "#address-cells" with
  | none => .error ("missing #address-cells on " ++ node.name ++ " (while handling interrupt-map)")
  | some v =>
    match prop_to_num v with
    | none => .error "bad #address-cells length"
    | some n => .ok n

/-- spec_len_fn used for interrupt-map rows:
4*(own #address-cells + #interrupt-cells). -/
def intSpecLen (node : PNode) : Except String Nat := do
  let a ← own_address_cells node
  let i ← interrupt_cells node
  pure (4 * (a + i))

/-- edtlib._raw_unit_addr: the first #address-cells cells of the node's
'reg' value, erroring when 'reg' is missing or shorter than that.  The
none result of address_cells (no parent / bad cell property) is mapped
to an error. -/
def raw_unit_addr (node : PNode) : Except String (List Nat) :=
  match getProp node "reg" with
  | none => .error (node.name ++ " lacks 'reg' property (needed for 'interrupt-map' unit address lookup)")
  | some reg =>
    match address_cells node with
    | none => .error "bad #address-cells"
    | some ac =>
      if reg.length < 4 * ac then
        .error (node.name ++ " has too short 'reg' property (while doing 'interrupt-map' unit address lookup)")
      else .ok (reg.take (4 * ac))

/-- edtlib._map_interrupt: translate an interrupt from child to parent;
if the parent is not itself an interrupt-controller, map
raw-unit-address ++ child-spec through interrupt-map tables and strip
the final parent's own #address-cells from the result. -/
def map_interrupt (fuel : Nat) (ctx : EdtCtx) (child parent : PNode)
    (child_spec : List Nat) : Except String (PNode × List Nat) :=
  if (getProp parent "interrupt-controller").isSome then .ok (parent, child_spec)
  else do
    let ua ← raw_unit_addr child
    let (p, raw_spec) ← map fuel ctx "interrupt" child parent (ua ++ child_spec) intSpecLen
    let oac ← own_address_cells p
    pure (p, raw_spec.drop (4 * oac))

/-- edtlib._map_gpio: gpio specifiers are mapped without any address
prefix, and only when the parent has a gpio-map. -/
def map_gpio (fuel : Nat) (ctx : EdtCtx) (child parent : PNode)
    (child_spec : List Nat) : Except String (PNode × List Nat) :=
  if getProp parent "gpio-map" = none then .ok (parent, child_spec)
  else map fuel ctx "gpio" child parent child_spec
    (fun node => do let g ← gpio_cells node; pure (4 * g))

/-! Spec-level view of 'ranges' used to state the translation claim:
a ranges value is a list of (child-address, parent-address, length)
triples, and translation locates the first triple whose child window
contains the address. -/

/-- Spec-level decoding of the sliced ranges chunks into
(child-address, parent-address, length) triples. -/
def rangeTriples (chunks : List (List Nat)) (cac pac : Nat) : List (Nat × Nat × Nat) :=
  chunks.map (fun raw =>
    (to_num (raw.take (4 * cac)),
     to_num ((raw.drop (4 * cac)).take (4 * pac)),
     to_num (raw.drop (4 * (cac + pac)))))

/-- Spec-level: the first triple whose child window contains addr. -/
def firstWindow (addr : Nat) : List (Nat × Nat × Nat) → Option (Nat × Nat × Nat)
  | [] => none
  | t :: rest =>
    if t.1 ≤ addr ∧ addr ≤ t.1 + t.2.2 then some t else firstWindow addr rest

theorem findRange_eq_firstWindow (addr cac pac : Nat) (chunks : List (List Nat)) :
    findRange addr cac pac chunks =
      (firstWindow addr (rangeTriples chunks cac pac)).map
        (fun t => t.2.1 + addr - t.1) := by
  induction chunks with
  | nil => rfl
  | cons raw rest ih =>
    simp only [findRange, rangeTriples, List.map_cons, firstWindow]
    by_cases h : to_num (raw.take (4 * cac)) ≤ addr ∧
        addr ≤ to_num (raw.take (4 * cac)) + to_num (raw.drop (4 * (cac + pac)))
    · simp [h]
    · simpa [h] using ih

/-- Example fixture: a root with one-cell addresses and sizes. -/
def exRoot : PNode :=
  .mk "/" [("#address-cells", [0,0,0,1]), ("#size-cells", [0,0,0,1])] none

/-- Example fixture: a bus with a single ranges window
(child 0x10, parent 0x2000, length 0x40). -/
def exSoc : PNode :=
  .mk "soc"
    [("#address-cells", [0,0,0,1]), ("#size-cells", [0,0,0,1]),
     ("ranges", [0,0,0,0x10, 0,0,0x20,0, 0,0,0,0x40])] (some exRoot)

/-- Example fixture: a device below the bus. -/
def exDev : PNode := .mk "dev" [] (some exSoc)

/-- C2.  Register addresses are translated recursively through every
ancestor's 'ranges' property: an absent 'ranges' on the parent returns
the address untranslated; an empty 'ranges' passes the address unchanged
to the next ancestor; otherwise the first (child-address, parent-address,
length) triple whose child window contains the address rewrites it to
parent-address + (address - child-address) and translation recurses
upward, while an address contained in no window passes through
unchanged.  Nested windows therefore compose by recursive substitution
over the whole ancestor chain. -/
theorem c2_translate_through_ranges (addr : Nat) (nm : String)
    (ps : List (String × List Nat)) (parent : PNode) :
    (getProp parent "ranges" = none →
      translate addr (PNode.mk nm ps (some parent)) = some addr) ∧
    (getProp parent "ranges" = some [] →
      translate addr (PNode.mk nm ps (some parent)) = translate addr parent) ∧
    (∀ v cac pac csc chunks,
      getProp parent "ranges" = some v → v ≠ [] →
      address_cells (PNode.mk nm ps (some parent)) = some cac →
      address_cells parent = some pac →
      size_cells (PNode.mk nm ps (some parent)) = some csc →
      sliceBytes v (4 * (cac + pac + csc)) = some chunks →
      ((firstWindow addr (rangeTriples chunks cac pac) = none →
         translate addr (PNode.mk nm ps (some parent)) = some addr) ∧
       (∀ ca pa ln, firstWindow addr (rangeTriples chunks cac pac) = some (ca, pa, ln) →
         translate addr (PNode.mk nm ps (some parent)) =
           translate (pa + addr - ca) parent))) := by
  refine ⟨?_, ?_, ?_⟩
  · intro h
    simp [translate, h]
  · intro h
    simp [translate, h]
  · intro v cac pac csc chunks hv hne hcac hpac hcsc hslice
    constructor
    · intro hfw
      simp [translate, hv, List.isEmpty_iff, hne, hcac, hpac, hcsc, hslice,
        findRange_eq_firstWindow, hfw]
    · intro ca pa ln hfw
      simp [translate, hv, List.isEmpty_iff, hne, hcac, hpac, hcsc, hslice,
        findRange_eq_firstWindow, hfw]

/-- Witness for C2: two-level translation composed over a concrete chain;
the bus window (child 0x10, parent 0x2000) rewrites 0x14 to 0x2004, and
the root (without 'ranges') returns it untranslated. -/
theorem c2_translate_witness : translate 0x14 exDev = some 0x2004 := by
  have h3 := (c2_translate_through_ranges 0x14 "dev" [] exSoc).2.2
    [0,0,0,0x10, 0,0,0x20,0, 0,0,0,0x40] 1 1 1
    [[0,0,0,0x10, 0,0,0x20,0, 0,0,0,0x40]]
    (by rfl) (by simp) (by rfl) (by rfl) (by rfl) (by rfl)
  have hw := h3.2 0x10 0x2000 0x40 (by rfl)
  have h1 := (c2_translate_through_ranges 0x2004 "soc"
    [("#address-cells", [0,0,0,1]), ("#size-cells", [0,0,0,1]),
     ("ranges", [0,0,0,0x10, 0,0,0x20,0, 0,0,0,0x40])] exRoot).1 (by rfl)
  show translate 0x14 (PNode.mk "dev" [] (some exSoc)) = some 0x2004
  rw [hw]
  exact h1

theorem length_rjust (b : List Nat) (n fill : Nat) :
    (rjust b n fill).length = max n b.length := by
  simp [rjust]
  omega

theorem length_andB (b1 b2 : List Nat) :
    (andB b1 b2).length = max b1.length b2.length := by
  simp [andB, length_rjust]

theorem length_orB (b1 b2 : List Nat) :
    (orB b1 b2).length = max b1.length b2.length := by
  simp [orB, length_rjust]

theorem length_notB (b : List Nat) : (notB b).length = b.length := by
  simp [notB]

theorem pySliceLast_self (xs : List Nat) : pySliceLast xs.length xs = xs := by
  by_cases h : xs.length = 0 <;> simp [pySliceLast, h]

/-- Example fixture: terminal gpio controller (one specifier cell). -/
def exCtrl : PNode :=
  .mk "ctrl" [("gpio-controller", []), ("#gpio-cells", [0,0,0,1])] none

/-- Example fixture: nexus node with one gpio-map row
(child-entry 0b001, phandle 1, parent-spec 0xAB), mask 0b001 and
pass-thru 0b010 (the concrete case of the claim). -/
def exNexus : PNode :=
  .mk "nexus"
    [("gpio-map", [0,0,0,1, 0,0,0,1, 0,0,0,0xAB]),
     ("gpio-map-mask", [0,0,0,1]),
     ("gpio-map-pass-thru", [0,0,0,2])] none

/-- Example fixture: the sender of the gpio specifier. -/
def exSender : PNode := .mk "sender" [] none

/-- Example fixture: phandle 1 maps to the terminal controller. -/
def exCtx : EdtCtx := ⟨[(1, exCtrl)]⟩

/-- C3.  Nexus mapping with a pass-thru: when the receiver declares
<kind>-map-pass-thru, the mapped parent specifier is
(child-spec AND pass-thru) OR (parent-spec AND NOT pass-thru) (stated
for specifiers of the parent specifier's width, which the source then
truncates to); and in the concrete case of the claim - child spec 0b011,
mask 0b001, one map row (0b001, phandle, 0xAB), pass-thru 0b010 - the
resolution recurses to the mapped phandle's node, a terminal controller,
with specifier (0b011 AND 0b010) OR (0xAB AND NOT 0b010). -/
theorem c3_pass_thru_nexus :
    (∀ (pfx : String) (parent : PNode) (child_spec parent_spec pt : List Nat),
      getProp parent (pfx ++ "-map-pass-thru") = some pt →
      pt.length = child_spec.length →
      parent_spec.length = child_spec.length →
      pass_thru pfx parent child_spec parent_spec =
        .ok (orB (andB child_spec pt) (andB parent_spec (notB pt)))) ∧
    map_gpio 9 exCtx exSender exNexus [0,0,0,0b011] = .ok (exCtrl, [0,0,0,0xAB]) ∧
    [0,0,0,0xAB] = orB (andB [0,0,0,0b011] [0,0,0,0b010])
      (andB [0,0,0,0xAB] (notB [0,0,0,0b010])) := by
  refine ⟨?_, by rfl, by rfl⟩
  intro pfx parent child_spec parent_spec pt hpt hlen hlen2
  have hres : (orB (andB child_spec pt) (andB parent_spec (notB pt))).length =
      parent_spec.length := by
    simp [length_orB, length_andB, length_notB, hlen, hlen2]
  simp only [pass_thru, hpt]
  rw [if_neg (by omega)]
  rw [← hres, pySliceLast_self]

/-- Witness for C3: the pass-thru formula applied at the claim's concrete
specifiers (child 0b011, row parent-spec 0xAB, pass-thru 0b010). -/
theorem c3_pass_thru_nexus_witness :
    pass_thru "gpio" exNexus [0,0,0,3] [0,0,0,0xAB] =
      .ok (orB (andB [0,0,0,3] [0,0,0,2]) (andB [0,0,0,0xAB] (notB [0,0,0,2]))) :=
  c3_pass_thru_nexus.1 "gpio" exNexus [0,0,0,3] [0,0,0,0xAB] [0,0,0,2]
    (by rfl) (by rfl) (by rfl)

/-- Example fixture: interrupt sender with reg = <5 1> under a root with
one-cell addresses. -/
def exISender : PNode := .mk "isender" [("reg", [0,0,0,5, 0,0,0,1])] (some exRoot)

/-- Example fixture: terminal interrupt controller with zero-cell unit
addresses and one interrupt cell. -/
def exICtrl : PNode :=
  .mk "ictrl"
    [("interrupt-controller", []), ("#interrupt-cells", [0,0,0,1]),
     ("#address-cells", [0,0,0,0])] none

/-- Example fixture: interrupt nexus with one interrupt-map row
(child unit address 5, child spec 7) -> (phandle 2, parent spec 9). -/
def exINexus : PNode :=
  .mk "inexus" [("interrupt-map", [0,0,0,5, 0,0,0,7, 0,0,0,2, 0,0,0,9])] none

/-- Example fixture: phandle 2 maps to the interrupt controller. -/
def exICtx : EdtCtx := ⟨[(2, exICtrl)]⟩

/-- C9.  Interrupt-map matching prepends the child's raw unit address
(the first #address-cells cells of its 'reg', erroring when 'reg' is
missing or shorter than that) to the interrupt specifier, and after
mapping strips the first #address-cells cells of the map parent's
specifier; gpio-map matching uses the specifier alone, with no address
prefix. -/
theorem c9_interrupt_unit_address (fuel : Nat) (ctx : EdtCtx)
    (child parent : PNode) (spec : List Nat) :
    (getProp parent "interrupt-controller" = none →
      getProp child "reg" = none →
      map_interrupt fuel ctx child parent spec =
        .error (child.name ++ " lacks 'reg' property (needed for 'interrupt-map' unit address lookup)")) ∧
    (∀ reg ac, getProp parent "interrupt-controller" = none →
      getProp child "reg" = some reg →
      address_cells child = some ac →
      reg.length < 4 * ac →
      map_interrupt fuel ctx child parent spec =
        .error (child.name ++ " has too short 'reg' property (while doing 'interrupt-map' unit address lookup)")) ∧
    (∀ reg ac, getProp parent "interrupt-controller" = none →
      getProp child "reg" = some reg →
      address_cells child = some ac →
      4 * ac ≤ reg.length →
      map_interrupt fuel ctx child parent spec =
        (do
          let pr ← map fuel ctx "interrupt" child parent (reg.take (4 * ac) ++ spec) intSpecLen
          let oac ← own_address_cells pr.1
          pure (pr.1, pr.2.drop (4 * oac)))) ∧
    (∀ m, getProp parent "gpio-map" = some m →
      map_gpio fuel ctx child parent spec =
        map fuel ctx "gpio" child parent spec
          (fun node => do let g ← gpio_cells node; pure (4 * g))) := by
  refine ⟨?_, ?_, ?_, ?_⟩
  · intro hic hreg
    simp [map_interrupt, hic, raw_unit_addr, hreg]
    rfl
  · intro reg ac hic hreg hac hshort
    simp [map_interrupt, hic, raw_unit_addr, hreg, hac]
    rw [if_pos (by omega)]
    rfl
  · intro reg ac hic hreg hac hlong
    simp only [map_interrupt, hic, Option.isSome_none, Bool.false_eq_true, if_false,
      raw_unit_addr, hreg, hac]
    rw [if_neg (by omega)]
    rfl
  · intro m hm
    simp [map_gpio, hm]

/-- Witness for C9: the concrete interrupt setup; the unit address <5> is
prepended (map child entry is [5, 7]), the row maps to the terminal
controller with parent spec <9>, and its zero #address-cells strips
nothing. -/
theorem c9_interrupt_unit_address_witness :
    map_interrupt 9 exICtx exISender exINexus [0,0,0,7] = .ok (exICtrl, [0,0,0,9]) := by
  have h := (c9_interrupt_unit_address 9 exICtx exISender exINexus [0,0,0,7]).2.2.1
    [0,0,0,5, 0,0,0,1] 1 (by rfl) (by rfl) (by rfl) (by simp)
  rw [h]
  rfl

end Edt

namespace Binding

/-! ### Embedding of edtlib's binding merging (_merge_props, _bad_overwrite,
_merge_binding)

YAML documents are modelled as an inductive value type; dictionaries are
insertion-ordered association lists (Python dicts preserve insertion
order; assigning to an existing key keeps its position).  Structural
equality yamlBeq mirrors Python ==, except that Python compares dicts
order-insensitively; merging recurses into dict/dict pairs before any
equality test, so the difference is only observable for dicts nested
inside lists. -/

/-- A YAML value as loaded for a binding. -/
inductive Yaml where
  | str (s : String)
  | num (n : Int)
  | bool (b : Bool)
  | null
  | list (elems : List Yaml)
  | dict (entries : List (String × Yaml))

/-- Structural equality on YAML values (Python ==), fuel-free via nested
recursion through the list structure. -/
def yamlBeq : Yaml → Yaml → Bool
  | .str a, .str b => a == b
  | .num a, .num b => a == b
  | .bool a, .bool b => a == b
  | .null, .null => true
  | .list a, .list b => listBeq a b
  | .dict a, .dict b => dictBeq a b
  | _, _ => false
where
  listBeq : List Yaml → List Yaml → Bool
    | [], [] => true
    | x :: xs, y :: ys => yamlBeq x y && listBeq xs ys
    | _, _ => false
  dictBeq : List (String × Yaml) → List (String × Yaml) → Bool
    | [], [] => true
    | (k, v) :: xs, (k2, v2) :: ys => k == k2 && yamlBeq v v2 && dictBeq xs ys
    | _, _ => false

/-- Python dict lookup d.get(k) on an insertion-ordered dict. -/
def lookupD (d : List (String × Yaml)) (k : String) : Option Yaml :=
  (d.find? (fun kv => kv.1 = k)).map (·.2)

/-- Python dict assignment d[k] = v: an existing key keeps its position,
a new key is appended. -/
def setD (d : List (String × Yaml)) (k : String) (v : Yaml) : List (String × Yaml) :=
  if (d.find? (fun kv => kv.1 = k)).isSome then
    d.map (fun kv => if kv.1 = k then (k, v) else kv)
  else d ++ [(k, v)]

/-- Is the value a dict (isinstance(-, dict))? -/
def Yaml.isDict : Yaml → Bool
  | .dict _ => true
  | _ => false

/-- edtlib._bad_overwrite: overwriting to_dict[prop] with from_dict[prop]
is bad unless the key is absent from to_dict, the values are equal, the
key is title/version/description, or the key is category changing from
'optional' to 'required'.  (Callers guarantee prop is in from_dict; the
impossible missing case is mapped to false.) -/
def bad_overwrite (toD fromD : List (String × Yaml)) (k : String) : Bool :=
  match lookupD toD k, lookupD fromD k with
  | none, _ => false
  | _, none => false
  | some tv, some fv =>
    if yamlBeq tv fv then false
    else if k = "title" ∨ k = "version" ∨ k = "description" then false
    else if k = "category" ∧ yamlBeq tv (.str "optional") ∧ yamlBeq fv (.str "required") then
      false
    else true

/-- edtlib._merge_props: recursively merge from_dict into to_dict; a
dict/dict pair merges recursively, any other pair overwrites (erroring
when _bad_overwrite flags it).  Fuel bounds the recursion depth; every
recursive call decrements it. -/
def merge_props : Nat → List (String × Yaml) → List (String × Yaml) →
    Except String (List (String × Yaml))
  | 0, _, _ => .error "merge out of fuel"
  | _ + 1, toD, [] => .ok toD
  | fuel + 1, toD, (k, v) :: rest =>
    match lookupD toD k, v with
    | some (.dict td), .dict fd => do
      let sub ← merge_props fuel td fd
      merge_props fuel (setD toD k (.dict sub)) rest
    | _, _ =>
      if bad_overwrite toD ((k, v) :: rest) k then
        .error ("'" ++ k ++ "' from !include'd file overwritten")
      else merge_props fuel (setD toD k v) rest

/-- edtlib._check_expected_props: title, version and description must be
present. -/
def check_expected_props (y : List (String × Yaml)) : Except String Unit :=
  if (lookupD y "title").isNone then .error "lacks 'title' property"
  else if (lookupD y "version").isNone then .error "lacks 'version' property"
  else if (lookupD y "description").isNone then .error "lacks 'description' property"
  else .ok ()

/-- Python dict pop: remove a key. -/
def removeD (d : List (String × Yaml)) (k : String) : List (String × Yaml) :=
  d.filter (fun kv => kv.1 ≠ k)

mutual

/-- edtlib._merge_binding: fold the already-loaded 'inherits' entries into
the including document, includer's keys winning via _merge_props. -/
def merge_binding : Nat → List (String × Yaml) → Except String (List (String × Yaml))
  | 0, _ => .error "merge out of fuel"
  | fuel + 1, yaml_top => do
    check_expected_props yaml_top
    match lookupD yaml_top "inherits" with
    | some (.list inhs) => merge_binding_go fuel (removeD yaml_top "inherits") inhs
    | some _ => .error "bad inherits"
    | none => .ok yaml_top

/-- The for-loop of _merge_binding over the inherits list. -/
def merge_binding_go : Nat → List (String × Yaml) → List Yaml →
    Except String (List (String × Yaml))
  | 0, _, _ => .error "merge out of fuel"
  | _ + 1, yaml_top, [] => .ok yaml_top
  | fuel + 1, yaml_top, inh :: rest =>
    match inh with
    | .dict inhD => do
      let inh' ← merge_binding fuel inhD
      let merged ← merge_props fuel inh' yaml_top
      merge_binding_go fuel merged rest
    | _ => .error "bad inherits entry"

end

theorem lookupD_cons_self (k : String) (v : Yaml) (t : List (String × Yaml)) :
    lookupD ((k, v) :: t) k = some v := by
  simp [lookupD, List.find?_cons_of_pos]

theorem lookupD_cons_ne (k k₁ : String) (v₁ : Yaml) (t : List (String × Yaml))
    (h : k₁ ≠ k) : lookupD ((k₁, v₁) :: t) k = lookupD t k := by
  simp [lookupD, List.find?_cons_of_neg, h]

theorem lookupD_map_self (d : List (String × Yaml)) (k' : String) (v : Yaml)
    (hd : (d.find? (fun kv => kv.1 = k')).isSome) :
    lookupD (d.map (fun kv => if kv.1 = k' then (k', v) else kv)) k' = some v := by
  induction d with
  | nil => simp at hd
  | cons kv t ih =>
    obtain ⟨k₁, v₁⟩ := kv
    by_cases h₁ : k₁ = k'
    · subst h₁
      simp only [List.map_cons, if_pos rfl]
      exact lookupD_cons_self k₁ v _
    · have ht : (t.find? (fun kv => kv.1 = k')).isSome := by
        rw [List.find?_cons_of_neg] at hd
        · exact hd
        · simp [h₁]
      simp only [List.map_cons, if_neg h₁]
      rw [lookupD_cons_ne _ _ _ _ h₁]
      exact ih ht

theorem lookupD_map_ne (d : List (String × Yaml)) (k k' : String) (v : Yaml)
    (hk : k ≠ k') :
    lookupD (d.map (fun kv => if kv.1 = k' then (k', v) else kv)) k = lookupD d k := by
  induction d with
  | nil => rfl
  | cons kv t ih =>
    obtain ⟨k₁, v₁⟩ := kv
    by_cases h₁ : k₁ = k'
    · subst h₁
      have hmap : ((k₁, v₁) :: t).map (fun kv => if kv.1 = k₁ then (k₁, v) else kv)
          = (k₁, v) :: t.map (fun kv => if kv.1 = k₁ then (k₁, v) else kv) := by simp
      rw [hmap, lookupD_cons_ne _ _ _ _ (Ne.symm hk), lookupD_cons_ne _ _ _ _ (Ne.symm hk)]
      exact ih
    · simp only [List.map_cons, if_neg h₁]
      by_cases h₂ : k₁ = k
      · subst h₂
        rw [lookupD_cons_self, lookupD_cons_self]
      · rw [lookupD_cons_ne _ _ _ _ h₂, lookupD_cons_ne _ _ _ _ h₂]
        exact ih

theorem lookupD_append_single (d : List (String × Yaml)) (k k' : String) (v : Yaml) :
    lookupD (d ++ [(k', v)]) k =
      match lookupD d k with
      | some x => some x
      | none => if k = k' then some v else none := by
  induction d with
  | nil =>
    by_cases hk : k = k'
    · subst hk; simp [lookupD_cons_self, lookupD]
    · have h0 : lookupD ([] : List (String × Yaml)) k = none := rfl
      simp only [List.nil_append, lookupD_cons_ne _ _ _ _ (Ne.symm hk), h0]
      simp [hk]
  | cons kv t ih =>
    obtain ⟨k₁, v₁⟩ := kv
    by_cases h₁ : k₁ = k
    · subst h₁
      simp [lookupD_cons_self]
    · rw [List.cons_append, lookupD_cons_ne _ _ _ _ h₁, lookupD_cons_ne _ _ _ _ h₁]
      exact ih

theorem lookupD_setD (d : List (String × Yaml)) (k k' : String) (v : Yaml) :
    lookupD (setD d k' v) k = if k = k' then some v else lookupD d k := by
  by_cases hd : (d.find? (fun kv => kv.1 = k')).isSome
  · unfold setD
    rw [if_pos hd]
    by_cases hk : k = k'
    · subst hk
      rw [lookupD_map_self d k v hd, if_pos rfl]
    · rw [lookupD_map_ne d k k' v hk, if_neg hk]
  · unfold setD
    rw [if_neg hd, lookupD_append_single]
    by_cases hk : k = k'
    · subst hk
      have : lookupD d k = none := by
        unfold lookupD
        cases h : d.find? (fun kv => kv.1 = k) with
        | none => rfl
        | some x => rw [h] at hd; simp at hd
      simp [this]
    · cases h : lookupD d k with
      | none => simp [hk]
      | some x => simp [hk]

theorem lookupD_eq_none_of_not_mem (d : List (String × Yaml)) (k : String)
    (h : k ∉ d.map Prod.fst) : lookupD d k = none := by
  induction d with
  | nil => rfl
  | cons kv t ih =>
    obtain ⟨k₁, v₁⟩ := kv
    have h₁ : k₁ ≠ k := by
      intro he
      exact h (by simp [he])
    rw [lookupD_cons_ne _ _ _ _ h₁]
    exact ih (fun hm => h (by rw [List.map_cons]; exact List.mem_cons_of_mem _ hm))

theorem except_error_ne_ok {ε α : Type} (e : ε) (a : α) :
    (Except.error e : Except ε α) ≠ Except.ok a := fun h => Except.noConfusion h

/-- Keys not mentioned in from_dict keep their to_dict binding. -/
theorem merge_props_not_mentioned (k : String) :
    ∀ (fromD : List (String × Yaml)) (fuel : Nat) (toD m : List (String × Yaml)),
    lookupD fromD k = none →
    merge_props fuel toD fromD = .ok m → lookupD m k = lookupD toD k := by
  intro fromD
  induction fromD with
  | nil =>
    intro fuel toD m _ hm
    match fuel with
    | 0 => exact absurd hm (except_error_ne_ok _ _)
    | fuel + 1 =>
      simp only [merge_props, Except.ok.injEq] at hm
      rw [← hm]
  | cons kv rest ih =>
    intro fuel toD m hk hm
    obtain ⟨k₁, v₁⟩ := kv
    have hk₁ : k₁ ≠ k := by
      intro h
      subst h
      rw [lookupD_cons_self] at hk
      exact Option.noConfusion hk
    have hkrest : lookupD rest k = none := by
      rw [← lookupD_cons_ne k k₁ v₁ rest hk₁]
      exact hk
    match fuel with
    | 0 => exact absurd hm (except_error_ne_ok _ _)
    | fuel + 1 =>
      simp only [merge_props] at hm
      split at hm
      case _ td fd h₁ =>
        cases hsub : merge_props fuel td fd with
        | error e =>
          rw [hsub] at hm
          exact absurd hm (except_error_ne_ok _ _)
        | ok sub =>
          rw [hsub] at hm
          rw [ih fuel _ m hkrest hm, lookupD_setD,
            if_neg (fun h => hk₁ h.symm)]
      case _ =>
        split at hm
        · exact absurd hm (except_error_ne_ok _ _)
        · rw [ih fuel _ m hkrest hm, lookupD_setD,
            if_neg (fun h => hk₁ h.symm)]

/-- On success, every key of from_dict whose pair is not the dict/dict
recursive case ends up bound to its from_dict value in the result. -/
theorem merge_props_override (k : String) :
    ∀ (fromD : List (String × Yaml)), (fromD.map Prod.fst).Nodup →
    ∀ (fuel : Nat) (toD m : List (String × Yaml)) (v : Yaml),
    merge_props fuel toD fromD = .ok m →
    lookupD fromD k = some v →
    (∀ td fd, ¬(lookupD toD k = some (.dict td) ∧ v = .dict fd)) →
    lookupD m k = some v := by
  intro fromD
  induction fromD with
  | nil =>
    intro _ fuel toD m v _ hl
    simp [lookupD] at hl
  | cons kv rest ih =>
    intro hnd fuel toD m v hm hl hdd
    obtain ⟨k₁, v₁⟩ := kv
    match fuel with
    | 0 => exact absurd hm (except_error_ne_ok _ _)
    | fuel + 1 =>
      by_cases hk₁ : k₁ = k
      · subst hk₁
        have hv : v₁ = v := by
          rw [lookupD_cons_self] at hl
          exact Option.some.inj hl
        subst hv
        have hkrest : lookupD rest k₁ = none := by
          apply lookupD_eq_none_of_not_mem
          simp only [List.map_cons, List.nodup_cons] at hnd
          exact hnd.1
        simp only [merge_props] at hm
        split at hm
        case _ td fd h₁ =>
          exact absurd ⟨h₁, rfl⟩ (hdd td fd)
        case _ =>
          split at hm
          · exact absurd hm (except_error_ne_ok _ _)
          · rw [merge_props_not_mentioned k₁ rest fuel _ m hkrest hm,
              lookupD_setD, if_pos rfl]
      · have hlrest : lookupD rest k = some v := by
          rw [← lookupD_cons_ne k k₁ v₁ rest hk₁]
          exact hl
        have hnd' : (rest.map Prod.fst).Nodup := by
          simp only [List.map_cons, List.nodup_cons] at hnd
          exact hnd.2
        have hne : k ≠ k₁ := fun h => hk₁ h.symm
        simp only [merge_props] at hm
        split at hm
        case _ td fd h₁ =>
          cases hsub : merge_props fuel td fd with
          | error e =>
            rw [hsub] at hm
            exact absurd hm (except_error_ne_ok _ _)
          | ok sub =>
            rw [hsub] at hm
            refine ih hnd' fuel _ m v hm hlrest ?_
            intro td' fd' hpair
            rw [lookupD_setD, if_neg hne] at hpair
            exact hdd td' fd' hpair
        case _ =>
          split at hm
          · exact absurd hm (except_error_ne_ok _ _)
          · refine ih hnd' fuel _ m v hm hlrest ?_
            intro td' fd' hpair
            rw [lookupD_setD, if_neg hne] at hpair
            exact hdd td' fd' hpair

/-- A key whose to_dict and from_dict values differ, are not both dicts,
and fall under no exception makes the merge fail, whatever the fuel. -/
theorem merge_props_conflict (k : String) (tv fv : Yaml)
    (hnb : ¬(tv.isDict = true ∧ fv.isDict = true))
    (hne : yamlBeq tv fv = false)
    (htvd : ¬(k = "title" ∨ k = "version" ∨ k = "description"))
    (hcat : ¬(k = "category" ∧ yamlBeq tv (.str "optional") = true ∧
      yamlBeq fv (.str "required") = true)) :
    ∀ (fromD : List (String × Yaml)) (fuel : Nat) (toD m : List (String × Yaml)),
    lookupD toD k = some tv → lookupD fromD k = some fv →
    merge_props fuel toD fromD ≠ .ok m := by
  intro fromD
  induction fromD with
  | nil =>
    intro fuel toD m _ hl
    simp [lookupD] at hl
  | cons kv rest ih =>
    intro fuel toD m ht hl hm
    obtain ⟨k₁, v₁⟩ := kv
    match fuel with
    | 0 => exact absurd hm (except_error_ne_ok _ _)
    | fuel + 1 =>
      by_cases hk₁ : k₁ = k
      · subst hk₁
        have hv : v₁ = fv := by
          rw [lookupD_cons_self] at hl
          exact Option.some.inj hl
        subst hv
        simp only [merge_props] at hm
        split at hm
        case _ td fd h₁ =>
          have htv : tv = .dict td := Option.some.inj (ht.symm.trans h₁)
          exact hnb ⟨by rw [htv]; rfl, rfl⟩
        case _ =>
          split at hm
          · exact absurd hm (except_error_ne_ok _ _)
          case _ hbo =>
            apply hbo
            simp only [bad_overwrite, ht, lookupD_cons_self]
            rw [if_neg (by simp [hne]), if_neg htvd, if_neg hcat]
      · have hne₁ : k ≠ k₁ := fun h => hk₁ h.symm
        have hlrest : lookupD rest k = some fv := by
          rw [← lookupD_cons_ne k k₁ v₁ rest hk₁]
          exact hl
        simp only [merge_props] at hm
        split at hm
        case _ td fd h₁ =>
          cases hsub : merge_props fuel td fd with
          | error e =>
            rw [hsub] at hm
            exact absurd hm (except_error_ne_ok _ _)
          | ok sub =>
            rw [hsub] at hm
            exact ih fuel _ m (by rw [lookupD_setD, if_neg hne₁]; exact ht) hlrest hm
        case _ =>
          split at hm
          · exact absurd hm (except_error_ne_ok _ _)
          · exact ih fuel _ m (by rw [lookupD_setD, if_neg hne₁]; exact ht) hlrest hm

/-- title/version/description overwrite silently (bad_overwrite never
flags them). -/
theorem bad_overwrite_tvd (toD fromD : List (String × Yaml)) (k : String)
    (h : k = "title" ∨ k = "version" ∨ k = "description") :
    bad_overwrite toD fromD k = false := by
  unfold bad_overwrite
  cases h₁ : lookupD toD k with
  | none => cases h₂ : lookupD fromD k <;> rfl
  | some tv =>
    cases h₂ : lookupD fromD k with
    | none => rfl
    | some fv =>
      show (if yamlBeq tv fv = true then false
        else if k = "title" ∨ k = "version" ∨ k = "description" then false
        else if k = "category" ∧ yamlBeq tv (Yaml.str "optional") = true ∧
            yamlBeq fv (Yaml.str "required") = true then false
        else true) = false
      by_cases he : yamlBeq tv fv = true
      · rw [if_pos he]
      · rw [if_neg he, if_pos h]

/-- The category key widening from 'optional' (included) to 'required'
(includer) is silent. -/
theorem bad_overwrite_category_widen (toD fromD : List (String × Yaml))
    (ht : lookupD toD "category" = some (.str "optional"))
    (hf : lookupD fromD "category" = some (.str "required")) :
    bad_overwrite toD fromD "category" = false := by
  simp only [bad_overwrite, ht, hf]
  decide

/-- Any other change of the category key is flagged. -/
theorem bad_overwrite_category_only_widen (toD fromD : List (String × Yaml))
    (tv fv : Yaml) (ht : lookupD toD "category" = some tv)
    (hf : lookupD fromD "category" = some fv) (hne : yamlBeq tv fv = false)
    (hno : ¬(yamlBeq tv (.str "optional") = true ∧ yamlBeq fv (.str "required") = true)) :
    bad_overwrite toD fromD "category" = true := by
  simp only [bad_overwrite, ht, hf]
  rw [if_neg (by simp [hne]), if_neg (by decide),
    if_neg (fun hc => hno ⟨hc.2.1, hc.2.2⟩)]

/-- The C6 claim as stated: merging a binding always succeeds, and every
key present in the including file (from_dict), outside
title/version/description, overrides the included file's binding in the
result. -/
def mergeOverridesClaim : Prop :=
  ∀ toD fromD : List (String × Yaml),
    ∃ fuel m, merge_props fuel toD fromD = .ok m ∧
      ∀ k v, lookupD fromD k = some v →
        ¬(k = "title" ∨ k = "version" ∨ k = "description") →
        lookupD m k = some v

/-- Counterexample to C6 as stated: an ordinary key ('x') present in both
files with different values does not get overridden - _merge_props raises
a fatal overwrite error instead, for any recursion fuel. -/
theorem c6_merge_counterexample : ¬ mergeOverridesClaim := by
  intro h
  obtain ⟨fuel, m, hm, _⟩ := h [("x", .num 1)] [("x", .num 2)]
  exact merge_props_conflict "x" (.num 1) (.num 2)
    (by decide) (by decide) (by decide) (by decide)
    [("x", .num 2)] fuel [("x", .num 1)] m (by rfl) (by rfl) hm

/-- C6 (amended).  Merging a binding with the files it pulls in gives the
including file's keys precedence, but a key present in both files with
differing values is a fatal error rather than an override, except
title/version/description (the includer's value silently wins) and
category changing from 'optional' (included) to 'required' (includer)
(silently widened, and only that change); on success every non-dict/dict
key of the includer carries the includer's value in the result
(dict/dict pairs merge recursively). -/
theorem c6_merge_amended :
    (∀ fromD : List (String × Yaml), (fromD.map Prod.fst).Nodup →
      ∀ (fuel : Nat) (toD m : List (String × Yaml)) (k : String) (v : Yaml),
        merge_props fuel toD fromD = .ok m →
        lookupD fromD k = some v →
        (∀ td fd, ¬(lookupD toD k = some (.dict td) ∧ v = .dict fd)) →
        lookupD m k = some v) ∧
    (∀ (k : String) (tv fv : Yaml), ¬(tv.isDict = true ∧ fv.isDict = true) →
      yamlBeq tv fv = false →
      ¬(k = "title" ∨ k = "version" ∨ k = "description") →
      ¬(k = "category" ∧ yamlBeq tv (.str "optional") = true ∧
        yamlBeq fv (.str "required") = true) →
      ∀ (fromD : List (String × Yaml)) (fuel : Nat) (toD m : List (String × Yaml)),
        lookupD toD k = some tv → lookupD fromD k = some fv →
        merge_props fuel toD fromD ≠ .ok m) ∧
    (∀ (toD fromD : List (String × Yaml)) (k : String),
      (k = "title" ∨ k = "version" ∨ k = "description") →
      bad_overwrite toD fromD k = false) ∧
    (∀ toD fromD : List (String × Yaml),
      lookupD toD "category" = some (.str "optional") →
      lookupD fromD "category" = some (.str "required") →
      bad_overwrite toD fromD "category" = false) ∧
    (∀ (toD fromD : List (String × Yaml)) (tv fv : Yaml),
      lookupD toD "category" = some tv → lookupD fromD "category" = some fv →
      yamlBeq tv fv = false →
      ¬(yamlBeq tv (.str "optional") = true ∧ yamlBeq fv (.str "required") = true) →
      bad_overwrite toD fromD "category" = true) := by
  refine ⟨?_, ?_, ?_, ?_, ?_⟩
  · intro fromD hnd fuel toD m k v hm hl hdd
    exact merge_props_override k fromD hnd fuel toD m v hm hl hdd
  · intro k tv fv hnb hne htvd hcat fromD fuel toD m ht hl
    exact merge_props_conflict k tv fv hnb hne htvd hcat fromD fuel toD m ht hl
  · intro toD fromD k h
    exact bad_overwrite_tvd toD fromD k h
  · intro toD fromD ht hf
    exact bad_overwrite_category_widen toD fromD ht hf
  · intro toD fromD tv fv ht hf hne hno
    exact bad_overwrite_category_only_widen toD fromD tv fv ht hf hne hno

/-- Witness for C6 (amended): a concrete merge where title is silently
overridden by the includer and the includer's new key lands in the
result, located via the amended theorem. -/
theorem c6_merge_amended_witness :
    merge_props 9 [("title", Yaml.str "inc"), ("x", Yaml.num 1)]
        [("title", Yaml.str "top"), ("y", Yaml.num 2)] =
      .ok [("title", Yaml.str "top"), ("x", Yaml.num 1), ("y", Yaml.num 2)] ∧
    lookupD [("title", Yaml.str "top"), ("x", Yaml.num 1), ("y", Yaml.num 2)] "y" =
      some (Yaml.num 2) := by
  refine ⟨by rfl, ?_⟩
  refine c6_merge_amended.1 [("title", .str "top"), ("y", .num 2)] (by simp) 9
    [("title", Yaml.str "inc"), ("x", Yaml.num 1)] _ "y" (.num 2) (by rfl) (by rfl) ?_
  intro td fd hp
  have h0 : lookupD [("title", Yaml.str "inc"), ("x", Yaml.num 1)] "y" = none := by rfl
  rw [h0] at hp
  exact Option.noConfusion hp.1

end Binding

namespace Dt

/-! ### Embedding of dtlib.py

Byte strings are lists of naturals (each < 256 by construction); Python's
mutable Node/Property tree becomes a purely functional tree with
functional updates addressed by node paths; dict-of-nodes /
dict-of-properties become insertion-ordered lists with unique names
(Python dict assignment keeps an existing key's position, which the
update helpers mirror).  DTError is Err.dt; any other Python exception
(AttributeError, TypeError, ...) is Err.crash; Err.fuel is the artifact
of bounding recursion and is not reachable with adequate fuel. -/

/-- Error outcomes of the parsing pipeline. -/
inductive Err where
  | dt (msg : String)
  | crash (msg : String)
  | fuel
deriving DecidableEq, Repr

/-- Marker kinds in property values (_PATH, _PHANDLE, _LABEL). -/
inductive MarkT where
  | path | phandle | lab
deriving DecidableEq, Repr

/-- dtlib.Property: name, byte value, labels on the property, in-value
offset labels (filled during fixup), and pending markers
(offset, reference text, kind), in offset order. -/
structure DProp where
  name : String
  value : List Nat
  labels : List String
  offsetLabels : List (String × Nat)
  markers : List (Nat × String × MarkT)
deriving DecidableEq, Repr

/-- dtlib.Node: name, labels, properties and subnodes (insertion-ordered,
unique names), and the transient /omit-if-no-ref/ and is-referenced
flags.  The parent back-reference of the source is represented by
addressing nodes with paths from the root. -/
inductive DNode where
  | mk (name : String) (labels : List String) (props : List DProp)
       (children : List DNode) (omitIfNoRef : Bool) (isReferenced : Bool)

/-- The node's name. -/
def DNode.name : DNode → String
  | .mk nm _ _ _ _ _ => nm

/-- The node's labels. -/
def DNode.labels : DNode → List String
  | .mk _ labs _ _ _ _ => labs

/-- The node's properties. -/
def DNode.props : DNode → List DProp
  | .mk _ _ ps _ _ _ => ps

/-- The node's subnodes. -/
def DNode.children : DNode → List DNode
  | .mk _ _ _ kids _ _ => kids

/-- The node's /omit-if-no-ref/ flag. -/
def DNode.omitIfNoRef : DNode → Bool
  | .mk _ _ _ _ om _ => om

/-- The node's is-referenced flag. -/
def DNode.isReferenced : DNode → Bool
  | .mk _ _ _ _ _ rf => rf

/-- Replace the node's labels. -/
def DNode.withLabels : DNode → List String → DNode
  | .mk nm _ ps kids om rf, labs => .mk nm labs ps kids om rf

/-- Replace the node's properties. -/
def DNode.withProps : DNode → List DProp → DNode
  | .mk nm labs _ kids om rf, ps => .mk nm labs ps kids om rf

/-- Replace the node's subnodes. -/
def DNode.withChildren : DNode → List DNode → DNode
  | .mk nm labs ps _ om rf, kids => .mk nm labs ps kids om rf

/-- Set the node's /omit-if-no-ref/ flag. -/
def DNode.withOmit : DNode → Bool → DNode
  | .mk nm labs ps kids _ rf, om => .mk nm labs ps kids om rf

/-- Set the node's is-referenced flag. -/
def DNode.withRef : DNode → Bool → DNode
  | .mk nm labs ps kids om _, rf => .mk nm labs ps kids om rf

/-- A fresh node (Node.__init__). -/
def newNode (nm : String) : DNode := .mk nm [] [] [] false false

/-- node.props.get(name). -/
def getPropN (n : DNode) (s : String) : Option DProp :=
  n.props.find? (fun p => p.name = s)

/-- node.props[p.name] = p (existing key keeps its position). -/
def setPropN (n : DNode) (p : DProp) : DNode :=
  if (n.props.find? (fun q => q.name = p.name)).isSome then
    n.withProps (n.props.map (fun q => if q.name = p.name then p else q))
  else n.withProps (n.props ++ [p])

/-- node.props.pop(name, None): drop the first property of that name. -/
def popPropN (n : DNode) (s : String) : DNode :=
  n.withProps (go n.props)
where
  go : List DProp → List DProp
    | [] => []
    | p :: ps => if p.name = s then ps else p :: go ps

/-- node.nodes.get(name). -/
def getChildN (n : DNode) (s : String) : Option DNode :=
  n.children.find? (fun c => c.name = s)

/-- node.nodes[c.name] = c (existing key keeps its position). -/
def setChildN (n : DNode) (c : DNode) : DNode :=
  if (n.children.find? (fun d => d.name = c.name)).isSome then
    n.withChildren (n.children.map (fun d => if d.name = c.name then c else d))
  else n.withChildren (n.children ++ [c])

/-- node.nodes.pop(name): drop the first subnode of that name. -/
def popChildN (n : DNode) (s : String) : DNode :=
  n.withChildren (go n.children)
where
  go : List DNode → List DNode
    | [] => []
    | c :: cs => if c.name = s then cs else c :: go cs

/-- A path from the root: the list of node names below it. -/
abbrev NPath := List String

/-- str.split on a single character (kernel-reducible). -/
def splitOnChar (sep : Char) (cs : List Char) : List String :=
  go [] cs
where
  go : List Char → List Char → List String
    | acc, [] => [⟨acc.reverse⟩]
    | acc, c :: cs => if c = sep then ⟨acc.reverse⟩ :: go [] cs else go (c :: acc) cs

/-- sep.join (kernel-reducible). -/
def joinSep (sep : String) : List String → String
  | [] => ""
  | [s] => s
  | s :: rest => s ++ sep ++ joinSep sep rest

/-- Node.path as a string ('/' for the root). -/
def pathStr (p : NPath) : String := "/" ++ joinSep "/" p

/-- Descend from a node along a path. -/
def getAtPath : DNode → NPath → Option DNode
  | n, [] => some n
  | n, c :: rest => do
    let child ← getChildN n c
    getAtPath child rest

/-- Apply f to the node at the path, rebuilding the tree; the tree is
unchanged when the path does not resolve. -/
def modifyAtPath (f : DNode → DNode) : DNode → NPath → DNode
  | n, [] => f n
  | n, c :: rest =>
    match getChildN n c with
    | none => n
    | some child => setChildN n (modifyAtPath f child rest)

/-- _del_node: remove the node at the path from its parent's dict.  A
path that no longer resolves leaves the tree unchanged (matching the
source popping from an already-detached parent object); deleting the
root dereferences a None parent, a crash. -/
def delAtPath (root : DNode) : NPath → Except Err DNode
  | [] => .error (.crash "attribute error: root node has no parent")
  | c :: rest => .ok (go root c rest)
where
  go : DNode → String → List String → DNode
    | n, c, [] => popChildN n c
    | n, c, c2 :: rest =>
      match getChildN n c with
      | none => n
      | some child => setChildN n (go child c2 rest)

/-- _append_no_dup: append preserving order, skipping duplicates. -/
def appendNoDup {α : Type} [DecidableEq α] (xs : List α) (x : α) : List α :=
  if x ∈ xs then xs else xs ++ [x]

/-- Stable insertion into a sorted list. -/
def insertIn {α : Type} (le : α → α → Bool) (x : α) : List α → List α
  | [] => [x]
  | y :: ys => if le x y then x :: y :: ys else y :: insertIn le x ys

/-- Stable insertion sort (the behaviour of Python's sorted()). -/
def insertionSortBy {α : Type} (le : α → α → Bool) : List α → List α
  | [] => []
  | x :: xs => insertIn le x (insertionSortBy le xs)

/-- node_iter: the node itself, then each subnode sorted by name,
recursively, paired with its path. -/
def nodeIterPaths : DNode → NPath → List (NPath × DNode)
  | .mk nm labs ps kids om rf, here =>
    (here, .mk nm labs ps kids om rf) ::
      (insertionSortBy (fun a b => decide (a.1 ≤ b.1)) (kidIters kids here)).flatMap (·.2)
where
  kidIters : List DNode → NPath → List (String × List (NPath × DNode))
    | [], _ => []
    | c :: cs, here => (c.name, nodeIterPaths c (here ++ [c.name])) :: kidIters cs here

/-- DT.get_node during parsing (aliases not yet registered): the path
must be absolute; each component must exist.  Returns the path below
the root. -/
def getNodePath (root : DNode) (path : String) : Except Err NPath :=
  if path.data.head? ≠ some '/' then .error (.dt "node path does not start with '/'")
  else
    go root ((splitOnChar '/' path.data).filter (fun c => c ≠ "")) []
where
  go (cur : DNode) : List String → NPath → Except Err NPath
    | [], acc => .ok acc.reverse
    | c :: rest, acc =>
      match getChildN cur c with
      | none => .error (.dt ("component '" ++ c ++ "' in path '" ++ path ++ "' does not exist"))
      | some child => go child rest (c :: acc)

/-- _resolve_ref: a reference is either a braced absolute path or a node
label searched over the whole tree (node_iter order). -/
def resolveRefPath (root : DNode) (s : String) : Except Err NPath :=
  if s.data.head? = some '\x7b' then getNodePath root ⟨(s.data.drop 1).dropLast⟩
  else
    match (nodeIterPaths root []).find? (fun pn => pn.2.labels.contains s) with
    | some pn => .ok pn.1
    | none => .error (.dt ("undefined node label '" ++ s ++ "'"))

/-! Byte-level helpers: UTF-8 coding, big-endian integers, backslash
unescaping. -/

/-- UTF-8 encoding of one character. -/
def utf8EncodeChar (c : Char) : List Nat :=
  let n := c.toNat
  if n < 0x80 then [n]
  else if n < 0x800 then [0xC0 ||| (n >>> 6), 0x80 ||| (n &&& 0x3F)]
  else if n < 0x10000 then
    [0xE0 ||| (n >>> 12), 0x80 ||| ((n >>> 6) &&& 0x3F), 0x80 ||| (n &&& 0x3F)]
  else
    [0xF0 ||| (n >>> 18), 0x80 ||| ((n >>> 12) &&& 0x3F),
     0x80 ||| ((n >>> 6) &&& 0x3F), 0x80 ||| (n &&& 0x3F)]

/-- str.encode("utf-8"). -/
def strToBytes (s : String) : List Nat := (s.data.map utf8EncodeChar).flatten

/-- Strict UTF-8 decoding (bytes.decode("utf-8")): rejects truncated and
overlong sequences and surrogates. -/
def utf8Decode : List Nat → Option (List Char)
  | [] => some []
  | b :: rest =>
    if b < 0x80 then do
      let cs ← utf8Decode rest
      pure (Char.ofNat b :: cs)
    else if b < 0xC2 then none
    else if b < 0xE0 then
      match rest with
      | b2 :: rest2 =>
        if 0x80 ≤ b2 ∧ b2 < 0xC0 then do
          let cs ← utf8Decode rest2
          pure (Char.ofNat (((b &&& 0x1F) <<< 6) ||| (b2 &&& 0x3F)) :: cs)
        else none
      | _ => none
    else if b < 0xF0 then
      match rest with
      | b2 :: b3 :: rest3 =>
        let lo2 := if b = 0xE0 then 0xA0 else 0x80
        let hi2 := if b = 0xED then 0xA0 else 0xC0
        if lo2 ≤ b2 ∧ b2 < hi2 ∧ 0x80 ≤ b3 ∧ b3 < 0xC0 then do
          let cs ← utf8Decode rest3
          pure (Char.ofNat (((b &&& 0x0F) <<< 12) ||| ((b2 &&& 0x3F) <<< 6) |||
            (b3 &&& 0x3F)) :: cs)
        else none
      | _ => none
    else if b < 0xF5 then
      match rest with
      | b2 :: b3 :: b4 :: rest4 =>
        let lo2 := if b = 0xF0 then 0x90 else 0x80
        let hi2 := if b = 0xF4 then 0x90 else 0xC0
        if lo2 ≤ b2 ∧ b2 < hi2 ∧ 0x80 ≤ b3 ∧ b3 < 0xC0 ∧ 0x80 ≤ b4 ∧ b4 < 0xC0 then do
          let cs ← utf8Decode rest4
          pure (Char.ofNat (((b &&& 0x07) <<< 18) ||| ((b2 &&& 0x3F) <<< 12) |||
            ((b3 &&& 0x3F) <<< 6) ||| (b4 &&& 0x3F)) :: cs)
        else none
      | _ => none
    else none

/-- bytes.decode("utf-8") to a Lean string. -/
def bytesToStr (bs : List Nat) : Option String :=
  (utf8Decode bs).map (fun cs => ⟨cs⟩)

/-- Big-endian value of a byte string (dtlib.to_num, unsigned). -/
def to_num (data : List Nat) : Nat := data.foldl (fun acc b => acc * 256 + b) 0

/-- n.to_bytes(count, "big") for a value known to fit. -/
def natToBytes (n count : Nat) : List Nat :=
  ((List.range count).reverse).map (fun k => n / 256 ^ k % 256)

/-- _unescape: replace backslash escapes in a byte string.  Escapes are
the regex alternatives, in order: backslash, quote, a b t n v f r, one
to three octal digits, x plus one or two hex digits; anything else after
a backslash is left alone (the regex does not match there).  An octal
escape above 255 is a parse error. -/
def unescapeF : Nat → List Nat → Except Err (List Nat)
  | 0, _ => .error .fuel
  | _, [] => .ok []
  | fuel + 1, b :: rest =>
    if b ≠ 0x5C then do pure (b :: (← unescapeF fuel rest))
    else
      match rest with
      | [] => .ok [0x5C]
      | e :: rest2 =>
        if e = 0x5C then do pure (0x5C :: (← unescapeF fuel rest2))
        else if e = 0x22 then do pure (0x22 :: (← unescapeF fuel rest2))
        else if e = 0x61 then do pure (0x07 :: (← unescapeF fuel rest2))
        else if e = 0x62 then do pure (0x08 :: (← unescapeF fuel rest2))
        else if e = 0x74 then do pure (0x09 :: (← unescapeF fuel rest2))
        else if e = 0x6E then do pure (0x0A :: (← unescapeF fuel rest2))
        else if e = 0x76 then do pure (0x0B :: (← unescapeF fuel rest2))
        else if e = 0x66 then do pure (0x0C :: (← unescapeF fuel rest2))
        else if e = 0x72 then do pure (0x0D :: (← unescapeF fuel rest2))
        else if e = 0x78 then
          -- \x with one or two hex digits (greedy); no digit: regex unmatched
          match rest2 with
          | [] => .ok [0x5C, 0x78]
          | d1 :: rest3 =>
            match hexVal d1 with
            | none => do pure (0x5C :: 0x78 :: (← unescapeF fuel rest2))
            | some h1 =>
              match rest3 with
              | [] => .ok [h1]
              | d2 :: rest4 =>
                match hexVal d2 with
                | some h2 => do pure ((16 * h1 + h2) :: (← unescapeF fuel rest4))
                | none => do pure (h1 :: (← unescapeF fuel rest3))
        else
          -- octal escape, one to three digits, greedy
          match octVal e with
          | none => do pure (0x5C :: e :: (← unescapeF fuel rest2))
          | some o1 =>
            match rest2 with
            | [] => .ok [o1]
            | d2 :: rest3 =>
              match octVal d2 with
              | none => do pure (o1 :: (← unescapeF fuel rest2))
              | some o2 =>
                match rest3 with
                | [] => .ok [8 * o1 + o2]
                | d3 :: rest4 =>
                  match octVal d3 with
                  | none => do pure ((8 * o1 + o2) :: (← unescapeF fuel rest3))
                  | some o3 =>
                    let v := 64 * o1 + 8 * o2 + o3
                    if v > 255 then .error (.dt "octal escape out of range (> 255)")
                    else do pure (v :: (← unescapeF fuel rest4))
where
  hexVal (b : Nat) : Option Nat :=
    if 0x30 ≤ b ∧ b ≤ 0x39 then some (b - 0x30)
    else if 0x41 ≤ b ∧ b ≤ 0x46 then some (b - 0x41 + 10)
    else if 0x61 ≤ b ∧ b ≤ 0x66 then some (b - 0x61 + 10)
    else none
  octVal (b : Nat) : Option Nat :=
    if 0x30 ≤ b ∧ b ≤ 0x37 then some (b - 0x30) else none

/-- _unescape with its (always adequate) fuel: every step consumes at
least one byte. -/
def unescape (bs : List Nat) : Except Err (List Nat) := unescapeF (bs.length + 1) bs

/-! Expression values.  _eval_prim returns the token value unchanged, so
a character-literal token contributes its (not yet unescaped) text as a
Python str; every operator therefore has Python's mixed-type semantics:
defined cases follow CPython, undefined ones raise (Err.crash).  A str
operand of %, or of an undefined mixed operation, crashes. -/

/-- A value inside the expression evaluator: a Python int or str. -/
inductive EVal where
  | int (i : Int)
  | str (s : String)
deriving DecidableEq, Repr

/-- Python truthiness of an evaluator value. -/
def EVal.truthy : EVal → Bool
  | .int i => i ≠ 0
  | .str s => s ≠ ""

/-- Python +. -/
def addV : EVal → EVal → Except Err EVal
  | .int a, .int b => .ok (.int (a + b))
  | .str a, .str b => .ok (.str (a ++ b))
  | _, _ => .error (.crash "type error: +")

/-- Python -. -/
def subV : EVal → EVal → Except Err EVal
  | .int a, .int b => .ok (.int (a - b))
  | _, _ => .error (.crash "type error: -")

/-- Python * (including str repetition). -/
def mulV : EVal → EVal → Except Err EVal
  | .int a, .int b => .ok (.int (a * b))
  | .str a, .int b => .ok (.str (String.join (List.replicate b.toNat a)))
  | .int a, .str b => .ok (.str (String.join (List.replicate a.toNat b)))
  | _, _ => .error (.crash "type error: *")

/-- Python // (the caller has already ruled out a falsy denominator). -/
def divV : EVal → EVal → Except Err EVal
  | .int a, .int b => .ok (.int (Int.fdiv a b))
  | _, _ => .error (.crash "type error: //")

/-- Python % on ints (a str left operand would be %-formatting; modelled
as a crash). -/
def modV : EVal → EVal → Except Err EVal
  | .int a, .int b => .ok (.int (Int.fmod a b))
  | _, _ => .error (.crash "type error: %")

/-- Python <<. -/
def shlV : EVal → EVal → Except Err EVal
  | .int a, .int b =>
    if b < 0 then .error (.crash "negative shift count")
    else .ok (.int (a * (2 ^ b.toNat : Int)))
  | _, _ => .error (.crash "type error: <<")

/-- Python >> (arithmetic, i.e. floor). -/
def shrV : EVal → EVal → Except Err EVal
  | .int a, .int b =>
    if b < 0 then .error (.crash "negative shift count")
    else .ok (.int (Int.fdiv a (2 ^ b.toNat : Int)))
  | _, _ => .error (.crash "type error: >>")

/-- Python & (two's complement on negative ints). -/
def bandV : EVal → EVal → Except Err EVal
  | .int a, .int b => .ok (.int (Int.land a b))
  | _, _ => .error (.crash "type error: &")

/-- Python |. -/
def borV : EVal → EVal → Except Err EVal
  | .int a, .int b => .ok (.int (Int.lor a b))
  | _, _ => .error (.crash "type error: |")

/-- Python ^. -/
def bxorV : EVal → EVal → Except Err EVal
  | .int a, .int b => .ok (.int (Int.xor a b))
  | _, _ => .error (.crash "type error: ^")

/-- Python == across the two types (cross-type compares unequal). -/
def eqV (a b : EVal) : Bool := a = b

/-- Python < (ints, and strs lexicographically; mixed raises). -/
def ltV : EVal → EVal → Except Err Bool
  | .int a, .int b => .ok (a < b)
  | .str a, .str b => .ok (a < b)
  | _, _ => .error (.crash "type error: <")

/-- Python <=. -/
def leV : EVal → EVal → Except Err Bool
  | .int a, .int b => .ok (a ≤ b)
  | .str a, .str b => .ok (a ≤ b)
  | _, _ => .error (.crash "type error: <=")

/-- Python unary -. -/
def negV : EVal → Except Err EVal
  | .int a => .ok (.int (-a))
  | _ => .error (.crash "type error: unary -")

/-- Python unary ~ (~x = -x-1). -/
def bnotV : EVal → Except Err EVal
  | .int a => .ok (.int (-(a + 1)))
  | _ => .error (.crash "type error: ~")

/-- num.to_bytes(count, "big"): unsigned first, retried signed; a str
value crashes (AttributeError). -/
def evalToBytes (v : EVal) (count : Nat) : Except Err (List Nat) :=
  match v with
  | .str _ => .error (.crash "attribute error: str has no to_bytes")
  | .int i =>
    if 0 ≤ i ∧ i < (256 ^ count : Nat) then .ok (natToBytes i.toNat count)
    else if -((256 ^ count : Nat) : Int) / 2 ≤ i ∧ i < ((256 ^ count : Nat) : Int) / 2 then
      .ok (natToBytes (i % ((256 ^ count : Nat) : Int)).toNat count)
    else
      .error (.dt (toString i ++ " does not fit in " ++ toString (8 * count) ++ " bits"))

/-! Tokens.  The lexer's token values are Python strings or ints; the
parser compares tok.val against literal strings, which only ever matches
tokens whose value is a str - Tok.strVal models exactly that. -/

/-- A lexer token (_Token): the id together with its value. -/
inductive Tok where
  | dtsV1 | plugin | memres | bits | delProp | delNode | omitRef | incbin
  | lab (s : String)
  | str (s : String)
  | chr (s : String)
  | ref (s : String)
  | num (v : Nat)
  | name (s : String)
  | misc (s : String)
  | byte (n : Nat)
  | eof
  | bad
deriving DecidableEq, Repr

/-- The token's value when it is a Python str (directive tokens carry
their matched text; number and byte tokens carry ints). -/
def Tok.strVal : Tok → Option String
  | .dtsV1 => some "/dts-v1/"
  | .plugin => some "/plugin/"
  | .memres => some "/memreserve/"
  | .bits => some "/bits/"
  | .delProp => some "/delete-property/"
  | .delNode => some "/delete-node/"
  | .omitRef => some "/omit-if-no-ref/"
  | .incbin => some "/incbin/"
  | .lab s => some s
  | .str s => some s
  | .chr s => some s
  | .ref s => some s
  | .name s => some s
  | .misc s => some s
  | .num _ => none
  | .byte _ => none
  | .eof => some "<EOF>"
  | .bad => some "<unknown token>"

/-- tok.val == s for a string s. -/
def Tok.isVal (t : Tok) (s : String) : Bool := t.strVal = some s

/-- _next_token at the token level: past the end of the stream the lexer
returns EOF tokens forever. -/
def nextT : List Tok → Tok × List Tok
  | [] => (.eof, [])
  | t :: ts => (t, ts)

/-- _peek_token at the token level. -/
def peekT (ts : List Tok) : Tok := (nextT ts).1

/-- _check_token: consume the next token when its value matches. -/
def checkT (s : String) (ts : List Tok) : Bool × List Tok :=
  let (t, ts') := nextT ts
  if t.isVal s then (true, ts') else (false, ts)

/-- The token's value rendered for error messages. -/
def tokValStr : Tok → String
  | .num n => toString n
  | .byte n => toString n
  | t => t.strVal.getD ""

/-- _expect_token: the next token must have the given string value. -/
def expectT (s : String) (ts : List Tok) : Except Err (Tok × List Tok) :=
  let (t, ts') := nextT ts
  if t.isVal s then .ok (t, ts')
  else .error (.dt ("expected '" ++ s ++ "', not '" ++ tokValStr t ++ "'"))

/-- _expect_num: the next token must be a number. -/
def expectNum (ts : List Tok) : Except Err (Nat × List Tok) :=
  match nextT ts with
  | (.num n, ts') => .ok (n, ts')
  | _ => .error (.dt "expected number")

mutual

/-- _eval_prim: a number or character literal token, or a parenthesized
ternary expression. -/
def evalPrim : Nat → List Tok → Except Err (EVal × List Tok)
  | 0, _ => .error .fuel
  | fuel + 1, ts =>
    match peekT ts with
    | .num n => .ok (.int n, (nextT ts).2)
    | .chr s => .ok (.str s, (nextT ts).2)
    | _ =>
      let (tok, ts1) := nextT ts
      if tok.isVal "(" then do
        let (v, ts2) ← evalTernary fuel ts1
        let (_, ts3) ← expectT ")" ts2
        pure (v, ts3)
      else .error (.dt "expected number or parenthesized expression")

/-- _eval_ternary. -/
def evalTernary : Nat → List Tok → Except Err (EVal × List Tok)
  | 0, _ => .error .fuel
  | fuel + 1, ts => do
    let (val, ts1) ← evalOr fuel ts
    let (b, ts2) := checkT "?" ts1
    if b then do
      let (ifv, ts3) ← evalTernary fuel ts2
      let (_, ts4) ← expectT ":" ts3
      let (elv, ts5) ← evalTernary fuel ts4
      pure (if val.truthy then ifv else elv, ts5)
    else pure (val, ts2)

/-- _eval_or. -/
def evalOr : Nat → List Tok → Except Err (EVal × List Tok)
  | 0, _ => .error .fuel
  | fuel + 1, ts => do
    let (v, ts1) ← evalAnd fuel ts
    evalOrRest fuel v ts1

/-- The while-loop of _eval_or. -/
def evalOrRest : Nat → EVal → List Tok → Except Err (EVal × List Tok)
  | 0, _, _ => .error .fuel
  | fuel + 1, val, ts =>
    let (b, ts1) := checkT "||" ts
    if b then do
      let (w, ts2) ← evalAnd fuel ts1
      evalOrRest fuel (if w.truthy || val.truthy then .int 1 else .int 0) ts2
    else pure (val, ts1)

/-- _eval_and. -/
def evalAnd : Nat → List Tok → Except Err (EVal × List Tok)
  | 0, _ => .error .fuel
  | fuel + 1, ts => do
    let (v, ts1) ← evalBitor fuel ts
    evalAndRest fuel v ts1

/-- The while-loop of _eval_and. -/
def evalAndRest : Nat → EVal → List Tok → Except Err (EVal × List Tok)
  | 0, _, _ => .error .fuel
  | fuel + 1, val, ts =>
    let (b, ts1) := checkT "&&" ts
    if b then do
      let (w, ts2) ← evalBitor fuel ts1
      evalAndRest fuel (if w.truthy && val.truthy then .int 1 else .int 0) ts2
    else pure (val, ts1)

/-- _eval_bitor. -/
def evalBitor : Nat → List Tok → Except Err (EVal × List Tok)
  | 0, _ => .error .fuel
  | fuel + 1, ts => do
    let (v, ts1) ← evalBitxor fuel ts
    evalBitorRest fuel v ts1

/-- The while-loop of _eval_bitor. -/
def evalBitorRest : Nat → EVal → List Tok → Except Err (EVal × List Tok)
  | 0, _, _ => .error .fuel
  | fuel + 1, val, ts =>
    let (b, ts1) := checkT "|" ts
    if b then do
      let (w, ts2) ← evalBitxor fuel ts1
      let v ← borV val w
      evalBitorRest fuel v ts2
    else pure (val, ts1)

/-- _eval_bitxor. -/
def evalBitxor : Nat → List Tok → Except Err (EVal × List Tok)
  | 0, _ => .error .fuel
  | fuel + 1, ts => do
    let (v, ts1) ← evalBitand fuel ts
    evalBitxorRest fuel v ts1

/-- The while-loop of _eval_bitxor. -/
def evalBitxorRest : Nat → EVal → List Tok → Except Err (EVal × List Tok)
  | 0, _, _ => .error .fuel
  | fuel + 1, val, ts =>
    let (b, ts1) := checkT "^" ts
    if b then do
      let (w, ts2) ← evalBitand fuel ts1
      let v ← bxorV val w
      evalBitxorRest fuel v ts2
    else pure (val, ts1)

/-- _eval_bitand. -/
def evalBitand : Nat → List Tok → Except Err (EVal × List Tok)
  | 0, _ => .error .fuel
  | fuel + 1, ts => do
    let (v, ts1) ← evalEq fuel ts
    evalBitandRest fuel v ts1

/-- The while-loop of _eval_bitand. -/
def evalBitandRest : Nat → EVal → List Tok → Except Err (EVal × List Tok)
  | 0, _, _ => .error .fuel
  | fuel + 1, val, ts =>
    let (b, ts1) := checkT "&" ts
    if b then do
      let (w, ts2) ← evalEq fuel ts1
      let v ← bandV val w
      evalBitandRest fuel v ts2
    else pure (val, ts1)

/-- _eval_eq. -/
def evalEq : Nat → List Tok → Except Err (EVal × List Tok)
  | 0, _ => .error .fuel
  | fuel + 1, ts => do
    let (v, ts1) ← evalRela fuel ts
    evalEqRest fuel v ts1

/-- The while-loop of _eval_eq. -/
def evalEqRest : Nat → EVal → List Tok → Except Err (EVal × List Tok)
  | 0, _, _ => .error .fuel
  | fuel + 1, val, ts =>
    let (b, ts1) := checkT "==" ts
    if b then do
      let (w, ts2) ← evalRela fuel ts1
      evalEqRest fuel (if eqV val w then .int 1 else .int 0) ts2
    else
      let (b2, ts2) := checkT "!=" ts1
      if b2 then do
        let (w, ts3) ← evalRela fuel ts2
        evalEqRest fuel (if eqV val w then .int 0 else .int 1) ts3
      else pure (val, ts2)

/-- _eval_rela. -/
def evalRela : Nat → List Tok → Except Err (EVal × List Tok)
  | 0, _ => .error .fuel
  | fuel + 1, ts => do
    let (v, ts1) ← evalShift fuel ts
    evalRelaRest fuel v ts1

/-- The while-loop of _eval_rela ('<', '>', '<=', '>=' in that order). -/
def evalRelaRest : Nat → EVal → List Tok → Except Err (EVal × List Tok)
  | 0, _, _ => .error .fuel
  | fuel + 1, val, ts =>
    let (b, ts1) := checkT "<" ts
    if b then do
      let (w, ts2) ← evalShift fuel ts1
      let r ← ltV val w
      evalRelaRest fuel (if r then .int 1 else .int 0) ts2
    else
      let (b2, ts2) := checkT ">" ts1
      if b2 then do
        let (w, ts3) ← evalShift fuel ts2
        let r ← ltV w val
        evalRelaRest fuel (if r then .int 1 else .int 0) ts3
      else
        let (b3, ts3) := checkT "<=" ts2
        if b3 then do
          let (w, ts4) ← evalShift fuel ts3
          let r ← leV val w
          evalRelaRest fuel (if r then .int 1 else .int 0) ts4
        else
          let (b4, ts4) := checkT ">=" ts3
          if b4 then do
            let (w, ts5) ← evalShift fuel ts4
            let r ← leV w val
            evalRelaRest fuel (if r then .int 1 else .int 0) ts5
          else pure (val, ts4)

/-- _eval_shift. -/
def evalShift : Nat → List Tok → Except Err (EVal × List Tok)
  | 0, _ => .error .fuel
  | fuel + 1, ts => do
    let (v, ts1) ← evalAdd fuel ts
    evalShiftRest fuel v ts1

/-- The while-loop of _eval_shift. -/
def evalShiftRest : Nat → EVal → List Tok → Except Err (EVal × List Tok)
  | 0, _, _ => .error .fuel
  | fuel + 1, val, ts =>
    let (b, ts1) := checkT "<<" ts
    if b then do
      let (w, ts2) ← evalAdd fuel ts1
      let v ← shlV val w
      evalShiftRest fuel v ts2
    else
      let (b2, ts2) := checkT ">>" ts1
      if b2 then do
        let (w, ts3) ← evalAdd fuel ts2
        let v ← shrV val w
        evalShiftRest fuel v ts3
      else pure (val, ts2)

/-- _eval_add. -/
def evalAdd : Nat → List Tok → Except Err (EVal × List Tok)
  | 0, _ => .error .fuel
  | fuel + 1, ts => do
    let (v, ts1) ← evalMul fuel ts
    evalAddRest fuel v ts1

/-- The while-loop of _eval_add. -/
def evalAddRest : Nat → EVal → List Tok → Except Err (EVal × List Tok)
  | 0, _, _ => .error .fuel
  | fuel + 1, val, ts =>
    let (b, ts1) := checkT "+" ts
    if b then do
      let (w, ts2) ← evalMul fuel ts1
      let v ← addV val w
      evalAddRest fuel v ts2
    else
      let (b2, ts2) := checkT "-" ts1
      if b2 then do
        let (w, ts3) ← evalMul fuel ts2
        let v ← subV val w
        evalAddRest fuel v ts3
      else pure (val, ts2)

/-- _eval_mul. -/
def evalMul : Nat → List Tok → Except Err (EVal × List Tok)
  | 0, _ => .error .fuel
  | fuel + 1, ts => do
    let (v, ts1) ← evalUnary fuel ts
    evalMulRest fuel v ts1

/-- The while-loop of _eval_mul (division and modulo by a falsy value is
a parse error). -/
def evalMulRest : Nat → EVal → List Tok → Except Err (EVal × List Tok)
  | 0, _, _ => .error .fuel
  | fuel + 1, val, ts =>
    let (b, ts1) := checkT "*" ts
    if b then do
      let (w, ts2) ← evalUnary fuel ts1
      let v ← mulV val w
      evalMulRest fuel v ts2
    else
      let (b2, ts2) := checkT "/" ts1
      if b2 then do
        let (w, ts3) ← evalUnary fuel ts2
        if ¬ w.truthy then .error (.dt "division by zero")
        else do
          let v ← divV val w
          evalMulRest fuel v ts3
      else
        let (b3, ts3) := checkT "%" ts2
        if b3 then do
          let (w, ts4) ← evalUnary fuel ts3
          if ¬ w.truthy then .error (.dt "division by zero")
          else do
            let v ← modV val w
            evalMulRest fuel v ts4
        else pure (val, ts3)

/-- _eval_unary. -/
def evalUnary : Nat → List Tok → Except Err (EVal × List Tok)
  | 0, _ => .error .fuel
  | fuel + 1, ts =>
    let (b, ts1) := checkT "-" ts
    if b then do
      let (v, ts2) ← evalUnary fuel ts1
      let r ← negV v
      pure (r, ts2)
    else
      let (b2, ts2) := checkT "~" ts1
      if b2 then do
        let (v, ts3) ← evalUnary fuel ts2
        let r ← bnotV v
        pure (r, ts3)
      else
        let (b3, ts3) := checkT "!" ts2
        if b3 then do
          let (v, ts4) ← evalUnary fuel ts3
          pure (if v.truthy then EVal.int 0 else EVal.int 1, ts4)
        else evalPrim fuel ts3

end

/-! The recursive-descent parser over the token stream.  File contents
for /incbin/ come from an abstract file oracle standing for _open's
search over the current directory and the include path. -/

/-- The parser's environment: the file oracle for /incbin/. -/
structure PCtx where
  files : String → Option (List Nat)

/-- Property._add_marker: record (current offset, ref, kind); a phandle
marker reserves four placeholder bytes. -/
def addMarker (p : DProp) (ref : String) (t : MarkT) : DProp :=
  let p1 := { p with markers := p.markers ++ [(p.value.length, ref, t)] }
  if t = .phandle then { p1 with value := p1.value ++ [0, 0, 0, 0] } else p1

/-- _parse_labels: in-value labels before/after a value segment. -/
def parseLabels (p : DProp) : List Tok → DProp × List Tok
  | [] => (p, [])
  | t :: ts =>
    match t with
    | .lab s => parseLabels (addMarker p s .lab) ts
    | _ => (p, t :: ts)

/-- _node_prop: fetch or create the property, erroring on '@' in a new
property name. -/
def nodeProp (node : DNode) (name : String) : Except Err (DProp × DNode) :=
  match getPropN node name with
  | some p => .ok (p, node)
  | none =>
    if name.data.contains '@' then .error (.dt "'@' is only allowed in node names")
    else
      let p : DProp := ⟨name, [], [], [], []⟩
      .ok (p, setPropN node p)

/-- _parse_cells: '< ... >' with the given element width. -/
def parseCells : Nat → DProp → Nat → List Tok → Except Err (DProp × List Tok)
  | 0, _, _, _ => .error .fuel
  | fuel + 1, prop, bits, ts =>
    match peekT ts with
    | .ref s =>
      if bits ≠ 32 then
        .error (.dt "phandle references are only allowed in arrays with 32-bit elements")
      else parseCells fuel (addMarker prop s .phandle) bits (nextT ts).2
    | .lab s => parseCells fuel (addMarker prop s .lab) bits (nextT ts).2
    | _ =>
      let (b, ts1) := checkT ">" ts
      if b then .ok (prop, ts1)
      else do
        let (num, ts2) ← evalPrim fuel ts1
        let bytes ← evalToBytes num (bits / 8)
        parseCells fuel { prop with value := prop.value ++ bytes } bits ts2

/-- _parse_bytes: '[ ... ]'. -/
def parseBytes : Nat → DProp → List Tok → Except Err (DProp × List Tok)
  | 0, _, _ => .error .fuel
  | fuel + 1, prop, ts =>
    let (tok, ts1) := nextT ts
    match tok with
    | .byte b => parseBytes fuel { prop with value := prop.value ++ [b] } ts1
    | .lab s => parseBytes fuel (addMarker prop s .lab) ts1
    | _ =>
      if tok.isVal "]" then .ok (prop, ts1)
      else .error (.dt "expected two-digit byte or ']'")

/-- _parse_incbin. -/
def parseIncbin (fuel : Nat) (ctx : PCtx) (prop : DProp) (ts : List Tok) :
    Except Err (DProp × List Tok) := do
  let (_, ts1) ← expectT "(" ts
  let (tok, ts2) := nextT ts1
  match tok with
  | .str filename => do
    let (tok2, ts3) := nextT ts2
    let (range?, ts') ←
      if tok2.isVal "," then do
        let (off, ts4) ← evalPrim fuel ts3
        let (_, ts5) ← expectT "," ts4
        let (size, ts6) ← evalPrim fuel ts5
        let (_, ts7) ← expectT ")" ts6
        pure (some (off, size), ts7)
      else if tok2.isVal ")" then pure (none, ts3)
      else .error (.dt "expected ',' or ')'")
    match ctx.files filename with
    | none => .error (.dt ("'" ++ filename ++ "' could not be found"))
    | some content =>
      match range? with
      | none => pure ({ prop with value := prop.value ++ content }, ts')
      | some (off, size) =>
        match off with
        | .str _ => .error (.crash "type error: seek offset must be an int")
        | .int o =>
          if o < 0 then .error (.dt ("could not read '" ++ filename ++ "'"))
          else
            match size with
            | .str _ => .error (.crash "type error: read size must be an int")
            | .int sz =>
              let rest := content.drop o.toNat
              let bytes := if sz < 0 then rest else rest.take sz.toNat
              pure ({ prop with value := prop.value ++ bytes }, ts')
  | _ => .error (.dt "expected quoted filename")

mutual

/-- _parse_assignment: reset the property's value and markers, then parse
the comma-separated value segments. -/
def parseAssignment (fuel : Nat) (ctx : PCtx) (prop : DProp) (ts : List Tok) :
    Except Err (DProp × List Tok) :=
  match fuel with
  | 0 => .error .fuel
  | fuel + 1 => parseAssignSeq fuel ctx { prop with value := [], markers := [] } ts

/-- The while-loop of _parse_assignment: one value segment, then ';' to
finish or ',' to continue. -/
def parseAssignSeq (fuel : Nat) (ctx : PCtx) (prop : DProp) (ts : List Tok) :
    Except Err (DProp × List Tok) :=
  match fuel with
  | 0 => .error .fuel
  | fuel + 1 => do
    let (prop1, ts1) := parseLabels prop ts
    let (tok, ts2) := nextT ts1
    let (prop2, ts3) ←
      if tok.isVal "<" then parseCells fuel prop1 32 ts2
      else
        match tok with
        | .bits => do
          let (n, ts3) ← expectNum ts2
          if n = 8 ∨ n = 16 ∨ n = 32 ∨ n = 64 then do
            let (_, ts4) ← expectT "<" ts3
            parseCells fuel prop1 n ts4
          else .error (.dt "expected 8, 16, 32, or 64")
        | .chr s => do
          let val ← unescape (strToBytes s)
          if val.length ≠ 1 then .error (.dt "character literals must be length 1")
          else pure ({ prop1 with value := prop1.value ++ val }, ts2)
        | .str s => do
          let bytes ← unescape (strToBytes s)
          pure ({ prop1 with value := prop1.value ++ bytes ++ [0] }, ts2)
        | .ref s => pure (addMarker prop1 s .path, ts2)
        | .incbin => parseIncbin fuel ctx prop1 ts2
        | _ =>
          if tok.isVal "[" then parseBytes fuel prop1 ts2
          else .error (.dt "malformed value")
    let (prop3, ts4) := parseLabels prop2 ts3
    let (tok2, ts5) := nextT ts4
    if tok2.isVal ";" then .ok (prop3, ts5)
    else if tok2.isVal "," then parseAssignSeq fuel ctx prop3 ts5
    else .error (.dt "expected ';' or ','")

end

/-- The leading labels / /omit-if-no-ref/ markers before an entry in a
node body. -/
def bodyLead : List String → Bool → List Tok → List String × Bool × Tok × List Tok
  | labels, om, [] => (labels, om, .eof, [])
  | labels, om, t :: ts =>
    match t with
    | .lab s => bodyLead (appendNoDup labels s) om ts
    | .omitRef => bodyLead labels true ts
    | _ => (labels, om, t, ts)

/-- The number of occurrences of a character in a string (str.count for
single characters). -/
def countChar (s : String) (c : Char) : Nat := (s.data.filter (fun d => d = c)).length

/-- _parse_node: the '... } ;' body of a node, applied to the node being
(re)opened; existing subnodes and properties are fetched and extended. -/
def parseNode (fuel : Nat) (ctx : PCtx) (node : DNode) (ts : List Tok) :
    Except Err (DNode × List Tok) :=
  match fuel with
  | 0 => .error .fuel
  | fuel + 1 =>
    let (labels, om, tok, ts1) := bodyLead [] false ts
    match tok with
    | .name s =>
      let (tok2, ts2) := nextT ts1
      if tok2.isVal "\x7b" then
        if countChar s '@' > 1 then .error (.dt "multiple '@' in node name")
        else
          let child := (getChildN node s).getD (newNode s)
          let child1 := labels.foldl (fun c l => c.withLabels (appendNoDup c.labels l)) child
          let child2 := if om then child1.withOmit true else child1
          let node1 := setChildN node child2
          do
            let (child', ts3) ← parseNode fuel ctx child2 ts2
            parseNode fuel ctx (setChildN node1 child') ts3
      else if om then .error (.dt "/omit-if-no-ref/ can only be used on nodes")
      else if tok2.isVal "=" then do
        let (prop, node1) ← nodeProp node s
        let (prop1, ts3) ← parseAssignment fuel ctx prop ts2
        let prop2 := labels.foldl
          (fun p l => { p with labels := appendNoDup p.labels l }) prop1
        parseNode fuel ctx (setPropN node1 prop2) ts3
      else if tok2.isVal ";" then do
        let (prop, node1) ← nodeProp node s
        let prop1 := labels.foldl
          (fun p l => { p with labels := appendNoDup p.labels l }) prop
        parseNode fuel ctx (setPropN node1 prop1) ts2
      else .error (.dt "expected '\x7b', '=', or ';'")
    | _ =>
      if labels ≠ [] ∨ om then .error (.dt "expected node or property name")
      else
        match tok with
        | .delNode =>
          let (tok2, ts2) := nextT ts1
          match tok2 with
          | .name s => do
            let node1 :=
              if (getChildN node s).isSome then popChildN node s else node
            let (_, ts3) ← expectT ";" ts2
            parseNode fuel ctx node1 ts3
          | _ => .error (.dt "expected node name")
        | .delProp =>
          let (tok2, ts2) := nextT ts1
          match tok2 with
          | .name s => do
            let (_, ts3) ← expectT ";" ts2
            parseNode fuel ctx (popPropN node s) ts3
          | _ => .error (.dt "expected property name")
        | _ =>
          if tok.isVal "\x7d" then do
            let (_, ts2) ← expectT ";" ts1
            .ok (node, ts2)
          else .error (.dt "expected node name, property name, or '\x7d'")

/-- The label prefix of a /memreserve/ statement. -/
def memresLabels : List String → List Tok → List String × List Tok
  | labels, [] => (labels, [])
  | labels, t :: ts =>
    match t with
    | .lab s => memresLabels (appendNoDup labels s) ts
    | _ => (labels, t :: ts)

/-- The /memreserve/ loop of _parse_dt. -/
def parseMemreserves : Nat → List (List String × EVal × EVal) → List Tok →
    Except Err (List (List String × EVal × EVal) × List Tok)
  | 0, _, _ => .error .fuel
  | fuel + 1, acc, ts =>
    let (labels, ts1) := memresLabels [] ts
    match peekT ts1 with
    | .memres => do
      let ts2 := (nextT ts1).2
      let (a, ts3) ← evalPrim fuel ts2
      let (l, ts4) ← evalPrim fuel ts3
      let (_, ts5) ← expectT ";" ts4
      parseMemreserves fuel (acc ++ [(labels, a, l)]) ts5
    | _ =>
      if labels ≠ [] then
        .error (.dt "expected /memreserve/ after labels at beginning of file")
      else .ok (acc, ts1)

/-- One reopen-by-reference statement at top level (the _T_LABEL/_T_REF
branch of _parse_dt's main loop). -/
def parseRefReopen (fuel : Nat) (ctx : PCtx) (root : Option DNode)
    (label? : Option String) (s : String) (ts : List Tok) :
    Except Err (DNode × List Tok) := do
  match root with
  | none => .error (.crash "attribute error: no root node yet")
  | some r =>
    match resolveRefPath r s with
    | .error e => .error e
    | .ok path => do
      let (_, ts1) ← expectT "\x7b" ts
      match getAtPath r path with
      | none => .error (.crash "internal: resolved path vanished")
      | some target => do
        let (target', ts2) ← parseNode fuel ctx target ts1
        let r1 := modifyAtPath (fun _ => target') r path
        let r2 :=
          match label? with
          | some l => modifyAtPath (fun n => n.withLabels (appendNoDup n.labels l)) r1 path
          | none => r1
        pure (r2, ts2)

/-- The main statement loop of _parse_dt: root bodies, reopens via
references, top-level /delete-node/ and /omit-if-no-ref/, until EOF. -/
def parseDtLoop (fuel : Nat) (ctx : PCtx) (root : Option DNode)
    (memres : List (List String × EVal × EVal)) (ts : List Tok) :
    Except Err (DNode × List (List String × EVal × EVal)) :=
  match fuel with
  | 0 => .error .fuel
  | fuel + 1 =>
    let (tok, ts1) := nextT ts
    if tok.isVal "/" then do
      let (_, ts2) ← expectT "\x7b" ts1
      let root0 := root.getD (newNode "/")
      let (root', ts3) ← parseNode fuel ctx root0 ts2
      parseDtLoop fuel ctx (some root') memres ts3
    else
      match tok with
      | .lab lbl =>
        let (tok2, ts2) := nextT ts1
        match tok2 with
        | .ref s => do
          let (r, ts3) ← parseRefReopen fuel ctx root (some lbl) s ts2
          parseDtLoop fuel ctx (some r) memres ts3
        | _ => .error (.dt "expected label reference")
      | .ref s => do
        let (r, ts2) ← parseRefReopen fuel ctx root none s ts1
        parseDtLoop fuel ctx (some r) memres ts2
      | .delNode =>
        (match root with
        | none => .error (.crash "attribute error: no root node yet")
        | some r =>
          let (tok2, ts2) := nextT ts1
          match tok2 with
          | .ref s => do
            match resolveRefPath r s with
            | .error e => .error e
            | .ok path => do
              let r' ← delAtPath r path
              let (_, ts3) ← expectT ";" ts2
              parseDtLoop fuel ctx (some r') memres ts3
          | _ => .error (.dt "expected label reference or path"))
      | .omitRef =>
        (match root with
        | none => .error (.crash "attribute error: no root node yet")
        | some r =>
          let (tok2, ts2) := nextT ts1
          match tok2 with
          | .ref s => do
            match resolveRefPath r s with
            | .error e => .error e
            | .ok path => do
              let r' := modifyAtPath (fun n => n.withOmit true) r path
              let (_, ts3) ← expectT ";" ts2
              parseDtLoop fuel ctx (some r') memres ts3
          | _ => .error (.dt "expected label reference or path"))
      | .eof =>
        match root with
        | none => .error (.dt "no root node defined")
        | some r => .ok (r, memres)
      | _ => .error (.dt "expected '/' or label reference")

/-- _parse_dt: the '/dts-v1/;' header, an optional rejected '/plugin/',
the memreserves, then the statement loop. -/
def parseDt (fuel : Nat) (ctx : PCtx) (ts : List Tok) :
    Except Err (DNode × List (List String × EVal × EVal)) := do
  let (tok, ts1) := nextT ts
  if tok ≠ .dtsV1 then
    .error (.dt "expected /dts-v1/ -- other versions are not supported")
  else do
    let (_, ts2) ← expectT ";" ts1
    if peekT ts2 = .plugin then .error (.dt "/plugin/ is not supported")
    else do
      let (memres, ts3) ← parseMemreserves fuel [] ts2
      parseDtLoop fuel ctx none memres ts3

/-! Post-processing (strictly ordered): phandle registration, marker
fixup, alias registration, unreferenced-node pruning, label
registration. -/

/-- The phandle-marker scan inside _register_phandles: the first phandle
marker decides - targeting the owning node is the self-referential case
(allowed, and stops the scan), anything else is an error. -/
def firstPhandleSelfRef (root : DNode) (path : NPath) (propName : String) :
    List (Nat × String × MarkT) → Except Err Bool
  | [] => .ok false
  | (_, ref, t) :: rest =>
    if t = .phandle then
      match resolveRefPath root ref with
      | .error e => .error e
      | .ok p =>
        if p = path then .ok true
        else .error (.dt (pathStr path ++ ": " ++ propName ++ " refers to another node"))
    else firstPhandleSelfRef root path propName rest

/-- The per-node body of _register_phandles: length check, the
self-reference scan, then the 0/0xFFFFFFFF and duplicate checks before
registering the explicit value. -/
def checkPhandle (root : DNode) (path : NPath) (node : DNode)
    (ph : List (Nat × NPath)) : Except Err (List (Nat × NPath)) :=
  match getPropN node "phandle" with
  | none => .ok ph
  | some phandle =>
    if phandle.value.length ≠ 4 then
      .error (.dt (pathStr path ++ ": bad phandle length (" ++
        toString phandle.value.length ++ "), expected 4 bytes"))
    else do
      let selfRef ← firstPhandleSelfRef root path phandle.name phandle.markers
      if selfRef then .ok ph
      else
        let v := to_num phandle.value
        if v = 0 ∨ v = 0xFFFFFFFF then
          .error (.dt (pathStr path ++ ": bad value for " ++ phandle.name))
        else
          match ph.find? (fun kv => kv.1 = v) with
          | some kv =>
            .error (.dt (pathStr path ++ ": duplicated phandle (seen before at " ++
              pathStr kv.2 ++ ")"))
          | none => .ok (ph ++ [(v, path)])

/-- _register_phandles: fold the per-node check over the tree walk. -/
def registerPhandles (root : DNode) : Except Err (List (Nat × NPath)) :=
  go (nodeIterPaths root []) []
where
  go : List (NPath × DNode) → List (Nat × NPath) → Except Err (List (Nat × NPath))
    | [], ph => .ok ph
    | (p, n) :: rest, ph => do go rest (← checkPhandle root p n ph)

/-- The while-loop allocating the smallest unused positive phandle
(fuel is one more than the number of used phandles, which always
suffices). -/
def findUnused (keys : List Nat) : Nat → Nat → Nat
  | 0, i => i
  | fuel + 1, i => if i ∈ keys then findUnused keys fuel (i + 1) else i

/-- _node_phandle: return the node's phandle value, allocating the
smallest unused positive phandle (and rewriting the placeholder /
creating the property) when it has none. -/
def nodePhandle (t : DNode) (ph : List (Nat × NPath)) (refPath : NPath) :
    Except Err (List Nat × DNode × List (Nat × NPath)) :=
  match getAtPath t refPath with
  | none => .error (.crash "internal: referenced node vanished")
  | some node =>
    let prop := (getPropN node "phandle").getD ⟨"phandle", [0, 0, 0, 0], [], [], []⟩
    if prop.value = [0, 0, 0, 0] then
      let k := findUnused (ph.map (·.1)) (ph.length + 1) 1
      let prop' := { prop with value := natToBytes k 4 }
      let t' := modifyAtPath (fun n => setPropN n prop') t refPath
      .ok (natToBytes k 4, t', ph ++ [(k, refPath)])
    else .ok (prop.value, t, ph)

/-- The marker loop of _fixup_props for one property: build the patched
value and provisional (label, offset) pairs, setting is-referenced flags
and allocating phandles along the way. -/
def fixupMarkers (nodePath : NPath) (origValue : List Nat) :
    List (Nat × String × MarkT) → List Nat → Nat → List (String × Nat) →
    DNode → List (Nat × NPath) →
    Except Err (List Nat × List (String × Nat) × DNode × List (Nat × NPath))
  | [], res, prevPos, offL, t, ph => .ok (res ++ origValue.drop prevPos, offL, t, ph)
  | (pos, ref, mt) :: rest, res, prevPos, offL, t, ph =>
    let res1 := res ++ (origValue.drop prevPos).take (pos - prevPos)
    match mt with
    | .lab => fixupMarkers nodePath origValue rest res1 pos
        (appendNoDup offL (ref, res1.length)) t ph
    | .path =>
      match resolveRefPath t ref with
      | .error (.dt e) => .error (.dt (pathStr nodePath ++ ": " ++ e))
      | .error e => .error e
      | .ok refPath =>
        let t1 := modifyAtPath (fun n => n.withRef true) t refPath
        fixupMarkers nodePath origValue rest
          (res1 ++ strToBytes (pathStr refPath) ++ [0]) pos offL t1 ph
    | .phandle =>
      match resolveRefPath t ref with
      | .error (.dt e) => .error (.dt (pathStr nodePath ++ ": " ++ e))
      | .error e => .error e
      | .ok refPath =>
        let t1 := modifyAtPath (fun n => n.withRef true) t refPath
        match nodePhandle t1 ph refPath with
        | .error e => .error e
        | .ok (bytes, t2, ph2) =>
          fixupMarkers nodePath origValue rest (res1 ++ bytes) (pos + 4) offL t2 ph2

/-- Fix up one property (read from the current tree, since an earlier
allocation may have rewritten a phandle placeholder), writing the
patched value and offset labels back. -/
def fixupOneProp (t : DNode) (ph : List (Nat × NPath)) (nodePath : NPath)
    (propName : String) : Except Err (DNode × List (Nat × NPath)) :=
  match getAtPath t nodePath with
  | none => .error (.crash "internal: node vanished in fixup")
  | some node =>
    match getPropN node propName with
    | none => .error (.crash "internal: property vanished in fixup")
    | some prop => do
      let (value', offL, t1, ph1) ←
        fixupMarkers nodePath prop.value prop.markers [] 0 prop.offsetLabels t ph
      let t2 := modifyAtPath (fun n =>
        match getPropN n propName with
        | some p => setPropN n { p with value := value', offsetLabels := offL }
        | none => n) t1 nodePath
      .ok (t2, ph1)

/-- Fix up all properties of the node at the path (names snapshot taken
at visit time, like the source's tuple()). -/
def fixupNodeProps (t : DNode) (ph : List (Nat × NPath)) (nodePath : NPath) :
    Except Err (DNode × List (Nat × NPath)) :=
  go ((((getAtPath t nodePath).map DNode.props).getD []).map (fun p => p.name)) t ph
where
  go : List String → DNode → List (Nat × NPath) →
      Except Err (DNode × List (Nat × NPath))
    | [], t, ph => .ok (t, ph)
    | nm :: rest, t, ph => do
      let (t1, ph1) ← fixupOneProp t ph nodePath nm
      go rest t1 ph1

/-- _fixup_props: fix up every property, walking nodes in node_iter
order (the walk's node set and order are unaffected by the fixups). -/
def fixupProps (t : DNode) (ph : List (Nat × NPath)) :
    Except Err (DNode × List (Nat × NPath)) :=
  go ((nodeIterPaths t []).map (·.1)) t ph
where
  go : List NPath → DNode → List (Nat × NPath) →
      Except Err (DNode × List (Nat × NPath))
    | [], t, ph => .ok (t, ph)
    | p :: rest, t, ph => do
      let (t1, ph1) ← fixupNodeProps t ph p
      go rest t1 ph1

/-- dtlib.to_strings on a byte value: UTF-8 decode, require a trailing
NUL, split on NULs. -/
def toStringsBytes (bs : List Nat) : Except Err (List String) :=
  match bytesToStr bs with
  | none => .error (.dt "value is not valid UTF-8")
  | some s =>
    if s.data.getLast? ≠ some (Char.ofNat 0) then
      .error (.dt "value is not null-terminated")
    else .ok ((splitOnChar (Char.ofNat 0) s.data).dropLast)

/-- Property.to_string: exactly one NUL-terminated string. -/
def propToString (p : DProp) : Except Err String := do
  let strs ← toStringsBytes p.value
  match strs with
  | [s] => .ok s
  | _ => .error (.dt ("value of property '" ++ p.name ++ "' contains more than one string"))

/-- Is the character allowed in an alias name ([0-9a-z-])? -/
def aliasChar (c : Char) : Bool :=
  ('0' ≤ c ∧ c ≤ '9') ∨ ('a' ≤ c ∧ c ≤ 'z') ∨ c = '-'

/-- _register_aliases: names restricted to [0-9a-z-]+, values resolved
as node paths. -/
def registerAliases (root : DNode) : Except Err (List (String × NPath)) :=
  match getChildN root "aliases" with
  | none => .ok []
  | some aliases => go aliases.props []
where
  go : List DProp → List (String × NPath) → Except Err (List (String × NPath))
    | [], acc => .ok acc
    | p :: rest, acc =>
      if ¬ (p.name ≠ "" ∧ p.name.data.all aliasChar) then
        .error (.dt ("/aliases: alias property name '" ++ p.name ++
          "' should include only characters from [0-9a-z-]"))
      else do
        let path ← propToString p
        match getNodePath root path with
        | .error (.dt e) =>
          .error (.dt ("/aliases: bad path for '" ++ p.name ++ "': " ++ e))
        | .error e => .error e
        | .ok np => go rest (acc ++ [(p.name, np)])

/-- _remove_unreferenced: delete every node flagged /omit-if-no-ref/
that was never referenced (walk order parents-first, so a flagged
descendant of a removed node is a no-op, as in the source). -/
def removeUnreferenced (root : DNode) : Except Err DNode :=
  go ((nodeIterPaths root []).filterMap
    (fun pn => if pn.2.omitIfNoRef ∧ ¬ pn.2.isReferenced then some pn.1 else none)) root
where
  go : List NPath → DNode → Except Err DNode
    | [], t => .ok t
    | p :: rest, t => do go rest (← delAtPath t p)

/-- A label's referent, compared the way the source's set of
Node / Property / (Property, offset) objects compares. -/
inductive Refnt where
  | node (p : NPath)
  | prop (p : NPath) (name : String)
  | propOff (p : NPath) (name : String) (off : Nat)
deriving DecidableEq, Repr

/-- The location string used in the duplicate-label error. -/
def refntDescr : Refnt → String
  | .node p => "on " ++ pathStr p
  | .prop p n => "on property '" ++ n ++ "' of node " ++ pathStr p
  | .propOff p n _ => "in the value of property '" ++ n ++ "' of node " ++ pathStr p

/-- The final label maps of a parsed tree. -/
structure LabelMaps where
  label2node : List (String × NPath)
  label2prop : List (String × (NPath × String))
  label2propOffset : List (String × (NPath × String × Nat))
deriving DecidableEq, Repr

/-- Dict assignment for an arbitrary association list. -/
def setAssoc {β : Type} (d : List (String × β)) (k : String) (v : β) :
    List (String × β) :=
  if (d.find? (fun kv => kv.1 = k)).isSome then
    d.map (fun kv => if kv.1 = k then (k, v) else kv)
  else d ++ [(k, v)]

/-- Add a referent to the label2things multimap (set semantics per
label, insertion-ordered labels). -/
def addThing (m : List (String × List Refnt)) (l : String) (r : Refnt) :
    List (String × List Refnt) :=
  match m.find? (fun kv => kv.1 = l) with
  | some kv => setAssoc m l (appendNoDup kv.2 r)
  | none => m ++ [(l, [r])]

/-- The offset-label list converted to its dict form (first-occurrence
order, last value wins), as _register_labels leaves it for __str__. -/
def dedupOffsetLabels (xs : List (String × Nat)) : List (String × Nat) :=
  xs.foldl (fun acc lo => setAssoc acc lo.1 lo.2) []

/-- The walk of _register_labels: collect every node label, property
label and offset label with its referent, and the final maps. -/
def collectLabels (root : DNode) :
    List (String × List Refnt) × LabelMaps :=
  go (nodeIterPaths root []) [] ⟨[], [], []⟩
where
  goProp (path : NPath) (p : DProp) :
      List (String × List Refnt) × LabelMaps → List (String × List Refnt) × LabelMaps :=
    fun st =>
      let st1 := p.labels.foldl
        (fun st l => (addThing st.1 l (.prop path p.name),
          { st.2 with label2prop := setAssoc st.2.label2prop l (path, p.name) })) st
      p.offsetLabels.foldl
        (fun st lo => (addThing st.1 lo.1 (.propOff path p.name lo.2),
          { st.2 with
            label2propOffset := setAssoc st.2.label2propOffset lo.1 (path, p.name, lo.2) })) st1
  go : List (NPath × DNode) → List (String × List Refnt) → LabelMaps →
      List (String × List Refnt) × LabelMaps
    | [], things, maps => (things, maps)
    | (path, n) :: rest, things, maps =>
      let st1 := n.labels.foldl
        (fun st l => (addThing st.1 l (.node path),
          { st.2 with label2node := setAssoc st.2.label2node l path })) (things, maps)
      let st2 := n.props.foldl (fun st p => goProp path p st) st1
      go rest st2.1 st2.2

/-- Rewrite every property's offset-label list to its deduplicated dict
form (the in-place mutation of _register_labels). -/
def dedupTreeOffsets : DNode → DNode
  | .mk nm labs ps kids om rf =>
    .mk nm labs (ps.map (fun p => { p with offsetLabels := dedupOffsetLabels p.offsetLabels }))
      (kidDedup kids) om rf
where
  kidDedup : List DNode → List DNode
    | [] => []
    | c :: cs => dedupTreeOffsets c :: kidDedup cs

/-- _register_labels: build the maps, rewrite offset labels, and fail on
the first label (in first-seen order) with more than one distinct
referent, listing all its locations sorted. -/
def registerLabels (root : DNode) : Except Err (DNode × LabelMaps) :=
  let (things, maps) := collectLabels root
  match things.find? (fun kv => kv.2.length > 1) with
  | some kv =>
    .error (.dt ("Label '" ++ kv.1 ++ "' appears " ++
      joinSep " and "
        (insertionSortBy (fun a b => decide (a ≤ b)) (kv.2.map refntDescr))))
  | none => .ok (dedupTreeOffsets root, maps)

/-- The finished DT instance: tree, memreserves and derived indexes. -/
structure DTFinal where
  root : DNode
  memreserves : List (List String × EVal × EVal)
  alias2node : List (String × NPath)
  phandle2node : List (Nat × NPath)
  labelMaps : LabelMaps

/-- DT.__init__ after lexing: parse, then the five post-processing
stages in order. -/
def buildDT (fuel : Nat) (ctx : PCtx) (ts : List Tok) : Except Err DTFinal := do
  let (r0, memres) ← parseDt fuel ctx ts
  let ph ← registerPhandles r0
  let (r1, ph1) ← fixupProps r0 ph
  let al ← registerAliases r1
  let r2 ← removeUnreferenced r1
  let (r3, maps) ← registerLabels r2
  pure ⟨r3, memres, al, ph1, maps⟩

/-! The serializer (DT.__str__, Node.__str__, Property.__str__). -/

/-- One uppercase hex digit. -/
def hexDigitU (n : Nat) : Char :=
  if n < 10 then Char.ofNat (0x30 + n) else Char.ofNat (0x41 + n - 10)

/-- One lowercase hex digit. -/
def hexDigitL (n : Nat) : Char :=
  if n < 10 then Char.ofNat (0x30 + n) else Char.ofNat (0x61 + n - 10)

/-- "{:02X}" of a byte. -/
def byteHex (b : Nat) : String := String.mk [hexDigitU (b / 16 % 16), hexDigitU (b % 16)]

/-- Lowercase hex digits of a natural (no prefix, at least one digit). -/
def natHexL (n : Nat) : String :=
  String.mk ((go n (n + 1)).reverse)
where
  go : Nat → Nat → List Char
    | _, 0 => []
    | n, fuel + 1 => if n = 0 then [] else hexDigitL (n % 16) :: go (n / 16) fuel

/-- "{:#018x}" of a Python int. -/
def formatHash18 (i : Int) : String :=
  if i < 0 then
    let d := natHexL (-i).toNat
    let d := if d = "" then "0" else d
    "-0x" ++ String.mk (List.replicate (15 - d.length) '0') ++ d
  else
    let d := natHexL i.toNat
    let d := if d = "" then "0" else d
    "0x" ++ String.mk (List.replicate (16 - d.length) '0') ++ d

/-- The hex rendering ' XX XX ...' of a byte run. -/
def hexBytesSeg (bs : List Nat) : String := String.join (bs.map (fun b => " " ++ byteHex b))

/-- The offset-label loop of Property.__str__: hex bytes interleaved with
'label:' insertions at their offsets. -/
def propValStr (value : List Nat) : Nat → List (String × Nat) → String
  | label_offset, [] => hexBytesSeg (value.drop label_offset)
  | offset, (label, loff) :: rest =>
    hexBytesSeg ((value.drop offset).take (loff - offset)) ++ " " ++ label ++ ":" ++
      propValStr value loff rest

/-- Property.__str__. -/
def propStr (p : DProp) : String :=
  let s := String.join (p.labels.map (fun l => l ++ ": ")) ++ p.name
  if p.value = [] then s ++ ";"
  else s ++ " = [" ++ propValStr p.value 0 p.offsetLabels ++ " ];"

/-- textwrap.indent(s, "\t"): prefix every line containing a
non-whitespace character. -/
def indentTab (s : String) : String :=
  joinSep "\n" ((splitOnChar '\n' s.data).map (fun line =>
    if line.data.any (fun c => ¬ c.isWhitespace) then "\t" ++ line else line))

/-- Node.__str__: labels, name, properties one per line, then the
indented subnodes. -/
def nodeStr : DNode → String
  | .mk nm labs ps kids _ _ =>
    String.join (labs.map (fun l => l ++ ": ")) ++ nm ++ " \x7b\n" ++
      String.join (ps.map (fun p => "\t" ++ propStr p ++ "\n")) ++
      String.join (kidStrs kids) ++ "\x7d;"
where
  kidStrs : List DNode → List String
    | [] => []
    | c :: cs => (indentTab (nodeStr c) ++ "\n") :: kidStrs cs

/-- DT.__str__: the header, the memreserves (with labels), then the root
node.  A str-valued memreserve entry would crash Python's hex
formatting, hence the Option. -/
def serializeDT (root : DNode) (memres : List (List String × EVal × EVal)) :
    Option String := do
  let lines ← memresLines memres
  pure ("/dts-v1/;\n\n" ++
    (if memres.isEmpty then "" else lines ++ "\n") ++ nodeStr root)
where
  memresLines : List (List String × EVal × EVal) → Option String
    | [] => some ""
    | (labs, a, l) :: rest => do
      let av ← match a with | .int i => some i | .str _ => none
      let lv ← match l with | .int i => some i | .str _ => none
      let line := String.join (labs.map (fun lb => lb ++ ": ")) ++
        "/memreserve/ " ++ formatHash18 av ++ " " ++ formatHash18 lv ++ ";\n"
      let restS ← memresLines rest
      pure (line ++ restS)

/-! The lexer (_next_token and the token regexes, hand-translated; all
regexes are compiled with re.ASCII and tried in the source's alternation
order, first match wins).  Positions are the remaining characters plus
an at-line-start flag for the ^-anchored #line directive; line/column
book-keeping (used only in error-message prefixes) is not modelled. -/

/-- Lexer states (_DEFAULT, _EXPECT_PROPNODENAME, _EXPECT_BYTE). -/
inductive LexState where
  | default | expectPropNodeName | expectByte
deriving DecidableEq, Repr

/-- A position: the remaining input and whether it sits at a line start. -/
structure LexPos where
  rem : List Char
  atLineStart : Bool
deriving DecidableEq, Repr

/-- The lexer's mutable state: position, mode, current filename and the
/include/ stack of (includer filename, resume position). -/
structure LexSt where
  pos : LexPos
  state : LexState
  fname : String
  filestack : List (String × LexPos)

/-- \s with re.ASCII. -/
def isWS (c : Char) : Bool :=
  c = ' ' ∨ c = '\t' ∨ c = '\n' ∨ c = '\x0d' ∨ c = '\x0b' ∨ c = '\x0c'

/-- [a-zA-Z]. -/
def isAsciiAlpha (c : Char) : Bool := ('a' ≤ c ∧ c ≤ 'z') ∨ ('A' ≤ c ∧ c ≤ 'Z')

/-- [0-9]. -/
def isAsciiDigit (c : Char) : Bool := '0' ≤ c ∧ c ≤ '9'

/-- [a-zA-Z_]. -/
def isIdentStart (c : Char) : Bool := isAsciiAlpha c ∨ c = '_'

/-- [a-zA-Z0-9_]. -/
def isIdentChar (c : Char) : Bool := isAsciiAlpha c ∨ isAsciiDigit c ∨ c = '_'

/-- [0-9a-fA-F]. -/
def isHexDigit (c : Char) : Bool :=
  isAsciiDigit c ∨ ('a' ≤ c ∧ c ≤ 'f') ∨ ('A' ≤ c ∧ c ≤ 'F')

/-- The value of a hex digit. -/
def hexDigitVal (c : Char) : Nat :=
  if isAsciiDigit c then c.toNat - 0x30
  else if 'a' ≤ c ∧ c ≤ 'f' then c.toNat - 0x61 + 10
  else c.toNat - 0x41 + 10

/-- The character class of propnodename bodies ([a-zA-Z0-9,._+*#?@-]). -/
def isPnChar (c : Char) : Bool :=
  isAsciiAlpha c ∨ isAsciiDigit c ∨ c = ',' ∨ c = '.' ∨ c = '_' ∨ c = '+' ∨
    c = '*' ∨ c = '#' ∨ c = '?' ∨ c = '@' ∨ c = '-'

/-- The character class inside braced references: the propnodename
class plus the slash. -/
def isRefPathChar (c : Char) : Bool := isPnChar c ∨ c = '/'

/-- Match a literal string prefix. -/
def dropLit : List Char → List Char → Option (List Char)
  | [], cs => some cs
  | _, [] => none
  | l :: ls, c :: cs => if c = l then dropLit ls cs else none

/-- Greedy [a-zA-Z_][a-zA-Z0-9_]*. -/
def takeIdent : List Char → Option (List Char × List Char)
  | [] => none
  | c :: cs =>
    if isIdentStart c then
      let rest := cs.dropWhile isIdentChar
      some (c :: cs.takeWhile isIdentChar, rest)
    else none

/-- The quoted content ((?:[^\\q]|\\.)*) up to the closing quote,
captured raw (escapes unprocessed); the dot does not match a newline. -/
def quotedContent (q : Char) : List Char → Option (List Char × List Char)
  | [] => none
  | c :: cs =>
    if c = q then some ([], cs)
    else if c = '\\' then
      match cs with
      | [] => none
      | d :: cs2 =>
        if d = '\n' then none
        else do
          let (content, rest) ← quotedContent q cs2
          pure ('\\' :: d :: content, rest)
    else do
      let (content, rest) ← quotedContent q cs
      pure (c :: content, rest)

/-- _T_LABEL: an identifier directly followed by ':'. -/
def matchLabel (cs : List Char) : Option (String × List Char) := do
  let (nm, rest) ← takeIdent cs
  match rest with
  | ':' :: rest2 => some (⟨nm⟩, rest2)
  | _ => none

/-- _T_REF: '&' then an identifier or a braced path (value includes the
braces, as in the source's capture group). -/
def matchRef : List Char → Option (String × List Char)
  | '&' :: cs =>
    (match takeIdent cs with
    | some (nm, rest) => some (⟨nm⟩, rest)
    | none =>
      match cs with
      | '\x7b' :: cs2 =>
        let content := cs2.takeWhile isRefPathChar
        (match cs2.dropWhile isRefPathChar with
        | '\x7d' :: rest => some (⟨'\x7b' :: content ++ ['\x7d']⟩, rest)
        | _ => none)
      | _ => none)
  | _ => none

/-- The comment scan of _T_SKIP's C-comment alternative: everything up
to the first '*/', failing on an unclosed comment. -/
def scanBlockComment : List Char → Option (List Char)
  | [] => none
  | '*' :: '/' :: cs => some cs
  | _ :: cs => scanBlockComment cs

/-- _T_SKIP: whitespace, a C comment, or a C++ comment to end of line. -/
def matchSkip : List Char → Option (List Char)
  | [] => none
  | c :: cs =>
    if isWS c then some (cs.dropWhile isWS)
    else
      match c :: cs with
      | '/' :: '*' :: cs2 => scanBlockComment cs2
      | '/' :: '/' :: cs2 => some (cs2.dropWhile (fun d => d ≠ '\n'))
      | _ => none

/-- [ \t]+. -/
def takeBlanks1 : List Char → Option (List Char)
  | [] => none
  | c :: cs => if c = ' ' ∨ c = '\t' then some (cs.dropWhile (fun d => d = ' ' ∨ d = '\t')) else none

/-- [0-9]+. -/
def takeDigits1 : List Char → Option (List Char × List Char)
  | [] => none
  | c :: cs =>
    if isAsciiDigit c then some (c :: cs.takeWhile isAsciiDigit, cs.dropWhile isAsciiDigit)
    else none

/-- The tail of the #line directive after '#' / '#line':
[ \t]+ digits [ \t]+ "file" ([ \t]+ digits)?. -/
def matchLineTail (cs : List Char) : Option (List Char) := do
  let cs1 ← takeBlanks1 cs
  let (_, cs2) ← takeDigits1 cs1
  let cs3 ← takeBlanks1 cs2
  match cs3 with
  | '"' :: cs4 => do
    let (_, cs5) ← quotedContent '"' cs4
    match takeBlanks1 cs5 with
    | some cs6 =>
      (match takeDigits1 cs6 with
      | some (_, cs7) => some cs7
      | none => some cs5)
    | none => some cs5
  | _ => none

/-- _T_LINE (anchored at line start): '#' with an optional 'line'. -/
def matchLine : List Char → Option (List Char)
  | '#' :: cs =>
    (match dropLit ['l', 'i', 'n', 'e'] cs with
    | some cs2 =>
      (match matchLineTail cs2 with
      | some rest => some rest
      | none => matchLineTail cs)
    | none => matchLineTail cs)
  | _ => none

/-- _T_INCLUDE: '/include/' \s* then a quoted filename (raw content). -/
def matchInclude (cs : List Char) : Option (String × List Char) := do
  let cs1 ← dropLit "/include/".data cs
  let cs2 := cs1.dropWhile isWS
  match cs2 with
  | '"' :: cs3 => do
    let (content, rest) ← quotedContent '"' cs3
    pure (⟨content⟩, rest)
  | _ => none

/-- The outcome of the main token regex (_token_re). -/
inductive TokenReRes where
  | include (filename : String)
  | line
  | strT (s : String)
  | dtsV1 | plugin | memres | bits | delProp | delNode | omitRef
  | labelT (s : String)
  | charT (s : String)
  | refT (s : String)
  | incbin
  | skip
  | eofT
deriving DecidableEq, Repr

/-- _token_re: the alternatives in the source's order, first match wins. -/
def matchTokenRe (atLS : Bool) (cs : List Char) : Option (TokenReRes × List Char) :=
  match matchInclude cs with
  | some (fn, rest) => some (.include fn, rest)
  | none =>
  match (if atLS then matchLine cs else none) with
  | some rest => some (.line, rest)
  | none =>
  match cs with
  | '"' :: cs2 =>
    (match quotedContent '"' cs2 with
    | some (content, rest) => some (.strT ⟨content⟩, rest)
    | none => matchTokenReLow atLS cs)
  | _ => matchTokenReLow atLS cs
where
  matchTokenReLow (_ : Bool) (cs : List Char) : Option (TokenReRes × List Char) :=
    match dropLit "/dts-v1/".data cs with
    | some rest => some (.dtsV1, rest)
    | none =>
    match dropLit "/plugin/".data cs with
    | some rest => some (.plugin, rest)
    | none =>
    match dropLit "/memreserve/".data cs with
    | some rest => some (.memres, rest)
    | none =>
    match dropLit "/bits/".data cs with
    | some rest => some (.bits, rest)
    | none =>
    match dropLit "/delete-property/".data cs with
    | some rest => some (.delProp, rest)
    | none =>
    match dropLit "/delete-node/".data cs with
    | some rest => some (.delNode, rest)
    | none =>
    match dropLit "/omit-if-no-ref/".data cs with
    | some rest => some (.omitRef, rest)
    | none =>
    match matchLabel cs with
    | some (s, rest) => some (.labelT s, rest)
    | none =>
    match cs with
    | '\'' :: cs2 =>
      (match quotedContent '\'' cs2 with
      | some (content, rest) => some (.charT ⟨content⟩, rest)
      | none => matchTokenReTail cs)
    | _ => matchTokenReTail cs
  matchTokenReTail (cs : List Char) : Option (TokenReRes × List Char) :=
    match matchRef cs with
    | some (s, rest) => some (.refT s, rest)
    | none =>
    match dropLit "/incbin/".data cs with
    | some rest => some (.incbin, rest)
    | none =>
    match matchSkip cs with
    | some rest => some (.skip, rest)
    | none =>
    match cs with
    | [] => some (.eofT, [])
    | _ => none

/-- _num_re: hex or decimal/octal digits with an optional ULL/UL/LL/U/L
suffix; the int() conversion of a leading-zero literal uses base 8 and
crashes on digits 8/9 (ValueError). -/
def matchNum : List Char → Option (Except Err Nat × List Char)
  | [] => none
  | c :: cs =>
    if c = '0' ∧ (cs.head? = some 'x' ∨ cs.head? = some 'X') ∧
        (cs.tail.head? |>.elim false isHexDigit) then
      let digits := cs.tail.takeWhile isHexDigit
      let rest := cs.tail.dropWhile isHexDigit
      some (.ok (digits.foldl (fun a d => a * 16 + hexDigitVal d) 0), dropSuffix rest)
    else if isAsciiDigit c then
      let digits := c :: cs.takeWhile isAsciiDigit
      let rest := cs.dropWhile isAsciiDigit
      let v : Except Err Nat :=
        if c = '0' then
          if digits.all (fun d => '0' ≤ d ∧ d ≤ '7') then
            .ok (digits.foldl (fun a d => a * 8 + (d.toNat - 0x30)) 0)
          else .error (.crash "value error: invalid octal literal")
        else .ok (digits.foldl (fun a d => a * 10 + (d.toNat - 0x30)) 0)
      some (v, dropSuffix rest)
    else none
where
  dropSuffix (cs : List Char) : List Char :=
    match dropLit "ULL".data cs with
    | some rest => rest
    | none =>
    match dropLit "UL".data cs with
    | some rest => rest
    | none =>
    match dropLit "LL".data cs with
    | some rest => rest
    | none =>
    match dropLit "U".data cs with
    | some rest => rest
    | none =>
    match dropLit "L".data cs with
    | some rest => rest
    | none => cs

/-- _propnodename_re: optional leading backslash (not captured), then
one or more name characters. -/
def matchPropNodeName : List Char → Option (String × List Char)
  | [] => none
  | c :: cs =>
    if c = '\\' then
      match cs with
      | [] => none
      | d :: ds =>
        if isPnChar d then some (⟨d :: ds.takeWhile isPnChar⟩, ds.dropWhile isPnChar)
        else none
    else if isPnChar c then some (⟨c :: cs.takeWhile isPnChar⟩, cs.dropWhile isPnChar)
    else none

/-- _byte_re: exactly two hex digits. -/
def matchByte : List Char → Option (Nat × List Char)
  | c1 :: c2 :: cs =>
    if isHexDigit c1 ∧ isHexDigit c2 then
      some (16 * hexDigitVal c1 + hexDigitVal c2, cs)
    else none
  | _ => none

/-- _misc_re: the punctuation literals in the source's order. -/
def matchMisc (cs : List Char) : Option (String × List Char) :=
  go ["==", "!=", "!", "=", ",", ";", "+", "-", "*", "/", "%", "~", "?", ":",
      "^", "(", ")", "\x7b", "\x7d", "[", "]", "<<", "<=", "<", ">>", ">=", ">",
      "||", "|", "&&", "&"]
where
  go : List String → Option (String × List Char)
    | [] => none
    | p :: ps =>
      match dropLit p.data cs with
      | some rest => some (p, rest)
      | none => go ps

/-- The lexer's file oracles: text files for /include/ (the /incbin/
oracle lives in PCtx). -/
structure LexCtx where
  incfiles : String → Option String

/-- Advance a position to the given remainder, updating the line-start
flag from the last consumed character. -/
def advancePos (p : LexPos) (rest : List Char) : LexPos :=
  let n := p.rem.length - rest.length
  { rem := rest,
    atLineStart :=
      match (p.rem.take n).getLast? with
      | some c => c = '\n'
      | none => p.atLineStart }

/-- The state transition at the bottom of _next_token, keyed on the
token id and its (string) value. -/
def stateSwitch (t : Tok) (st : LexState) : LexState :=
  if t = .delProp ∨ t = .delNode ∨ t = .omitRef ∨ t.isVal "\x7b" ∨ t.isVal ";" then
    .expectPropNodeName
  else if t.isVal "[" then .expectByte
  else if t = .memres ∨ t = .bits ∨ t.isVal "]" then .default
  else st

/-- _enter_file: unescape and decode the filename, load it through the
oracle, and check for recursive inclusion along the file stack. -/
def enterFile (ctx : LexCtx) (st : LexSt) (rawName : String) (resume : LexPos) :
    Except Err LexSt := do
  let nameBytes ← unescape (strToBytes rawName)
  match bytesToStr nameBytes with
  | none => .error (.dt "filename is not valid UTF-8")
  | some fn =>
    match ctx.incfiles fn with
    | none => .error (.dt ("'" ++ fn ++ "' could not be found"))
    | some text =>
      if (st.filestack.map (·.1) ++ [st.fname]).contains fn then
        .error (.dt "recursive /include/")
      else
        .ok { pos := ⟨text.data, true⟩, state := st.state, fname := fn,
              filestack := st.filestack ++ [(st.fname, resume)] }

/-- _next_token: try _token_re, then the state-specific regex, then
_misc_re; skip whitespace/comments, handle /include/, #line and
end-of-included-file, update the lexer state, and return the token. -/
def nextToken : Nat → LexCtx → LexSt → Except Err (Tok × LexSt)
  | 0, _, _ => .error .fuel
  | fuel + 1, ctx, st =>
    match matchTokenRe st.pos.atLineStart st.pos.rem with
    | some (res, rest) =>
      let pos' := advancePos st.pos rest
      (match res with
      | .skip => nextToken fuel ctx { st with pos := pos' }
      | .line => nextToken fuel ctx { st with pos := pos' }
      | .include fn => do
        let st' ← enterFile ctx st fn pos'
        nextToken fuel ctx st'
      | .eofT =>
        (match st.filestack.getLast? with
        | none => .ok (.eof, st)
        | some fr =>
          nextToken fuel ctx ⟨fr.2, st.state, fr.1, st.filestack.dropLast⟩)
      | .strT s => retTok (.str s) pos' st
      | .dtsV1 => retTok .dtsV1 pos' st
      | .plugin => retTok .plugin pos' st
      | .memres => retTok .memres pos' st
      | .bits => retTok .bits pos' st
      | .delProp => retTok .delProp pos' st
      | .delNode => retTok .delNode pos' st
      | .omitRef => retTok .omitRef pos' st
      | .labelT s => retTok (.lab s) pos' st
      | .charT s => retTok (.chr s) pos' st
      | .refT s => retTok (.ref s) pos' st
      | .incbin => retTok .incbin pos' st)
    | none =>
      match st.state with
      | .default =>
        (match matchNum st.pos.rem with
        | some (conv, rest) => do
          let n ← conv
          retTok (.num n) (advancePos st.pos rest) st
        | none => tryMisc st)
      | .expectPropNodeName =>
        (match matchPropNodeName st.pos.rem with
        | some (s, rest) =>
          retTok (.name s) (advancePos st.pos rest) { st with state := .default }
        | none => tryMisc st)
      | .expectByte =>
        (match matchByte st.pos.rem with
        | some (b, rest) => retTok (.byte b) (advancePos st.pos rest) st
        | none => tryMisc st)
where
  retTok (t : Tok) (pos' : LexPos) (st : LexSt) : Except Err (Tok × LexSt) :=
    .ok (t, { st with pos := pos', state := stateSwitch t st.state })
  tryMisc (st : LexSt) : Except Err (Tok × LexSt) :=
    match matchMisc st.pos.rem with
    | some (s, rest) => retTok (.misc s) (advancePos st.pos rest) st
    | none => .ok (.bad, st)

/-- Collect the token stream (one _next_token call per element; a bad
token ends the stream, as the parser always fails on it without
consuming further). -/
def lexAll : Nat → LexCtx → LexSt → Except Err (List Tok)
  | 0, _, _ => .error .fuel
  | fuel + 1, ctx, st => do
    let (t, st') ← nextToken (fuel + 1) ctx st
    match t with
    | .eof => pure []
    | .bad => pure [.bad]
    | _ => do pure (t :: (← lexAll fuel ctx st'))

/-- The file oracles of a parse: text files for /include/, binary files
for /incbin/. -/
structure Files where
  text : String → Option String
  bin : String → Option (List Nat)

/-- DT.__init__: lex the whole input, parse the token stream and run the
post-processing pipeline.  fuel bounds recursion depths and the token
count; any sufficiently large value gives the source's behaviour. -/
def parseDTS (fuel : Nat) (files : Files) (fname : String) (src : String) :
    Except Err DTFinal := do
  let toks ← lexAll fuel ⟨files.text⟩ ⟨⟨src.data, true⟩, .default, fname, []⟩
  buildDT fuel ⟨files.bin⟩ toks

/-! Claim C1: round trip of parse / serialize / parse. -/

/-- A parse with no /include/ or /incbin/ files available. -/
def noFiles : Files := ⟨fun _ => none, fun _ => none⟩

/-- C1 failing input: a syntactically valid file whose root node gains a
label by being reopened through a braced path reference. -/
def c1Input : String := "/dts-v1/;\n\n/ \x7b \x7d;\nlab: &\x7b/\x7d \x7b \x7d;\n"

/-- What DT.__str__ prints for that tree. -/
def c1Out : String := "/dts-v1/;\n\nlab: / \x7b\n\x7d;"

/-- C1.  Round-trip failure (code bug, evaluated at the failing input):
the input parses successfully and its root node carries the label 'lab';
the serializer prints that label in front of '/', but re-parsing the
serialized text fails with "expected /memreserve/ after labels at
beginning of file" instead of yielding a structurally equal tree - the
top-level grammar accepts a leading label only before a reference, never
before the '/' of a root-node statement. -/
theorem c1_roundtrip_code_bug :
    (parseDTS 2000 noFiles "input.dts" c1Input).toOption.map
      (fun dt => (dt.root.labels, serializeDT dt.root dt.memreserves)) =
      some (["lab"], some c1Out) ∧
    parseDTS 2000 noFiles "input.dts" c1Out =
      .error (.dt "expected /memreserve/ after labels at beginning of file") :=
  ⟨rfl, rfl⟩

/-! Claim C10: /delete-node/ and /delete-property/ inside a node body
are silent no-ops when the target is absent; a top-level /delete-node/
with an unresolvable reference is a parse error. -/

theorem withProps_self (n : DNode) : n.withProps n.props = n := by
  cases n
  rfl

theorem popPropN_go_absent (s : String) :
    ∀ ps : List DProp, (∀ p ∈ ps, p.name ≠ s) → popPropN.go s ps = ps := by
  intro ps
  induction ps with
  | nil => intro _; rfl
  | cons p tail ih =>
    intro hall
    have h1 : p.name ≠ s := hall p (by simp)
    simp only [popPropN.go, if_neg h1]
    rw [ih (fun q hq => hall q (by simp [hq]))]

theorem popPropN_absent (n : DNode) (s : String) (h : getPropN n s = none) :
    popPropN n s = n := by
  have hall : ∀ p ∈ n.props, p.name ≠ s := by
    intro p hp
    have hf : n.props.find? (fun p => p.name = s) = none := h
    have := List.find?_eq_none.mp hf p hp
    simpa using this
  rw [popPropN, popPropN_go_absent s n.props hall, withProps_self]

/-- C10.  Inside a node body, '/delete-node/ name;' with no child of that
name and '/delete-property/ name;' with no property of that name both
succeed silently, continuing the body parse with the node unchanged; a
top-level '/delete-node/ &ref;' propagates the reference-resolution
error, and an unbound label yields "undefined node label '...'". -/
theorem c10_delete_missing (fuel : Nat) (ctx : PCtx) :
    (∀ (node : DNode) (s : String) (ts : List Tok), getChildN node s = none →
      parseNode (fuel + 1) ctx node (.delNode :: .name s :: .misc ";" :: ts) =
        parseNode fuel ctx node ts) ∧
    (∀ (node : DNode) (s : String) (ts : List Tok), getPropN node s = none →
      parseNode (fuel + 1) ctx node (.delProp :: .name s :: .misc ";" :: ts) =
        parseNode fuel ctx node ts) ∧
    (∀ (r : DNode) (memres : List (List String × EVal × EVal)) (s : String)
        (msg : String) (ts : List Tok),
      resolveRefPath r s = .error (.dt msg) →
      parseDtLoop (fuel + 1) ctx (some r) memres (.delNode :: .ref s :: ts) =
        .error (.dt msg)) ∧
    (∀ (r : DNode) (s : String),
      s.data.head? ≠ some '\x7b' →
      (∀ pn ∈ nodeIterPaths r [], ¬ pn.2.labels.contains s) →
      resolveRefPath r s = .error (.dt ("undefined node label '" ++ s ++ "'"))) := by
  refine ⟨?_, ?_, ?_, ?_⟩
  · intro node s ts h
    simp only [parseNode, bodyLead, nextT, expectT, Tok.isVal, Tok.strVal, h]
    rfl
  · intro node s ts h
    simp only [parseNode, bodyLead, nextT, expectT, Tok.isVal, Tok.strVal,
      popPropN_absent node s h]
    rfl
  · intro r memres s msg ts h
    simp [parseDtLoop, nextT, Tok.isVal, Tok.strVal, h]
  · intro r s hb hl
    have hfind : (nodeIterPaths r []).find? (fun pn => pn.2.labels.contains s) = none := by
      apply List.find?_eq_none.mpr
      intro pn hpn
      simpa using hl pn hpn
    unfold resolveRefPath
    rw [if_neg hb, hfind]

/-- Witness for C10: deleting the nonexistent child 'kid' and property
'p' from a fresh node leaves it unchanged and the body parse succeeds,
and a top-level delete of the unbound label 'ghost' is the undefined
node label parse error. -/
theorem c10_delete_missing_witness :
    parseNode 6 ⟨fun _ => none⟩ (newNode "x")
      [.delNode, .name "kid", .misc ";", .delProp, .name "p", .misc ";",
       .misc "\x7d", .misc ";"] = .ok (newNode "x", []) ∧
    parseDtLoop 6 ⟨fun _ => none⟩ (some (newNode "/")) []
      [.delNode, .ref "ghost", .misc ";"] =
      .error (.dt "undefined node label 'ghost'") := by
  constructor
  · rw [(c10_delete_missing 5 ⟨fun _ => none⟩).1 (newNode "x") "kid" _ (by rfl),
      (c10_delete_missing 4 ⟨fun _ => none⟩).2.1 (newNode "x") "p" _ (by rfl)]
    rfl
  · rw [(c10_delete_missing 5 ⟨fun _ => none⟩).2.2.1 (newNode "/") [] "ghost" _ _
      ((c10_delete_missing 5 ⟨fun _ => none⟩).2.2.2 (newNode "/") "ghost" (by decide)
        (by decide))]
    rfl

/-! Claim C7: duplicate-label detection.  Spec-level view: the walk
emits a flat list of (label, referent) events; a label's referents are
the deduplicated accumulation of its events. -/

/-- The (label, referent) events of one property. -/
def propEvents (path : NPath) (p : DProp) : List (String × Refnt) :=
  p.labels.map (fun l => (l, Refnt.prop path p.name)) ++
    p.offsetLabels.map (fun lo => (lo.1, Refnt.propOff path p.name lo.2))

/-- The (label, referent) events of one walked node. -/
def nodeEvents (pn : NPath × DNode) : List (String × Refnt) :=
  pn.2.labels.map (fun l => (l, Refnt.node pn.1)) ++
    pn.2.props.flatMap (propEvents pn.1)

/-- All (label, referent) events of the tree, in walk order. -/
def labelEvents (root : DNode) : List (String × Refnt) :=
  (nodeIterPaths root []).flatMap nodeEvents

/-- Spec-level: the distinct referents carrying a label, in first-seen
order. -/
def labelThings (root : DNode) (l : String) : List Refnt :=
  (labelEvents root).foldl
    (fun acc e => if e.1 = l then appendNoDup acc e.2 else acc) []

/-- Generic lookup in an association list (the dict .get). -/
def lookupA {β : Type} (d : List (String × β)) (k : String) : Option β :=
  (d.find? (fun kv => kv.1 = k)).map (·.2)

theorem lookupA_cons_self {β : Type} (k : String) (v : β) (t : List (String × β)) :
    lookupA ((k, v) :: t) k = some v := by
  simp [lookupA, List.find?_cons_of_pos]

theorem lookupA_cons_ne {β : Type} (k k₁ : String) (v₁ : β) (t : List (String × β))
    (h : k₁ ≠ k) : lookupA ((k₁, v₁) :: t) k = lookupA t k := by
  simp [lookupA, List.find?_cons_of_neg, h]

theorem lookupA_append {β : Type} (d e : List (String × β)) (k : String) :
    lookupA (d ++ e) k =
      match lookupA d k with
      | some x => some x
      | none => lookupA e k := by
  induction d with
  | nil => simp [lookupA]
  | cons kv t ih =>
    obtain ⟨k₁, v₁⟩ := kv
    by_cases h₁ : k₁ = k
    · subst h₁
      simp [lookupA_cons_self]
    · rw [List.cons_append, lookupA_cons_ne _ _ _ _ h₁, lookupA_cons_ne _ _ _ _ h₁]
      exact ih

theorem lookupA_map_self {β : Type} (d : List (String × β)) (k' : String) (v : β)
    (hd : (d.find? (fun kv => kv.1 = k')).isSome) :
    lookupA (d.map (fun kv => if kv.1 = k' then (k', v) else kv)) k' = some v := by
  induction d with
  | nil => simp at hd
  | cons kv t ih =>
    obtain ⟨k₁, v₁⟩ := kv
    by_cases h₁ : k₁ = k'
    · subst h₁
      simp only [List.map_cons, if_pos rfl]
      exact lookupA_cons_self k₁ v _
    · have ht : (t.find? (fun kv => kv.1 = k')).isSome := by
        rw [List.find?_cons_of_neg] at hd
        · exact hd
        · simp [h₁]
      simp only [List.map_cons, if_neg h₁]
      rw [lookupA_cons_ne _ _ _ _ h₁]
      exact ih ht

theorem lookupA_map_ne {β : Type} (d : List (String × β)) (k k' : String) (v : β)
    (hk : k ≠ k') :
    lookupA (d.map (fun kv => if kv.1 = k' then (k', v) else kv)) k = lookupA d k := by
  induction d with
  | nil => rfl
  | cons kv t ih =>
    obtain ⟨k₁, v₁⟩ := kv
    by_cases h₁ : k₁ = k'
    · subst h₁
      have hmap : ((k₁, v₁) :: t).map (fun kv => if kv.1 = k₁ then (k₁, v) else kv)
          = (k₁, v) :: t.map (fun kv => if kv.1 = k₁ then (k₁, v) else kv) := by simp
      rw [hmap, lookupA_cons_ne _ _ _ _ (Ne.symm hk), lookupA_cons_ne _ _ _ _ (Ne.symm hk)]
      exact ih
    · simp only [List.map_cons, if_neg h₁]
      by_cases h₂ : k₁ = k
      · subst h₂
        rw [lookupA_cons_self, lookupA_cons_self]
      · rw [lookupA_cons_ne _ _ _ _ h₂, lookupA_cons_ne _ _ _ _ h₂]
        exact ih

theorem lookupA_setAssoc {β : Type} (d : List (String × β)) (k k' : String) (v : β) :
    lookupA (setAssoc d k' v) k = if k = k' then some v else lookupA d k := by
  by_cases hd : (d.find? (fun kv => kv.1 = k')).isSome
  · unfold setAssoc
    rw [if_pos hd]
    by_cases hk : k = k'
    · subst hk
      rw [lookupA_map_self d k v hd, if_pos rfl]
    · rw [lookupA_map_ne d k k' v hk, if_neg hk]
  · unfold setAssoc
    rw [if_neg hd, lookupA_append]
    by_cases hk : k = k'
    · subst hk
      have h0 : lookupA d k = none := by
        unfold lookupA
        cases h : d.find? (fun kv => kv.1 = k) with
        | none => rfl
        | some x => rw [h] at hd; simp at hd
      rw [h0, if_pos rfl]
      exact lookupA_cons_self k v []
    · cases h : lookupA d k with
      | none =>
        have h1 : lookupA ([(k', v)] : List (String × β)) k = none := by
          rw [lookupA_cons_ne _ _ _ _ (fun he => hk he.symm)]
          rfl
        simp [h1, hk]
      | some x => simp [hk]

theorem lookupA_addThing_self (m : List (String × List Refnt)) (l : String) (r : Refnt) :
    lookupA (addThing m l r) l = some (appendNoDup ((lookupA m l).getD []) r) := by
  unfold addThing
  cases hf : m.find? (fun kv => kv.1 = l) with
  | none =>
    have h0 : lookupA m l = none := by unfold lookupA; rw [hf]; rfl
    rw [lookupA_append, h0]
    have h1 : lookupA ((l, [r]) :: []) l = some [r] := lookupA_cons_self l [r] []
    simp [h1, appendNoDup]
  | some kv =>
    have hk : kv.1 = l := by
      have := List.find?_some hf
      simpa using this
    have hl : lookupA m l = some kv.2 := by
      unfold lookupA
      rw [hf]
      rfl
    rw [lookupA_setAssoc, if_pos rfl, hl]
    rfl

theorem lookupA_addThing_ne (m : List (String × List Refnt)) (l l' : String)
    (r : Refnt) (h : l' ≠ l) : lookupA (addThing m l' r) l = lookupA m l := by
  unfold addThing
  cases hf : m.find? (fun kv => kv.1 = l') with
  | none =>
    rw [lookupA_append, lookupA_cons_ne _ _ _ _ h]
    cases hx : lookupA m l <;> rfl
  | some kv =>
    rw [lookupA_setAssoc, if_neg (fun he => h he.symm)]

/-- The accumulation of a label's events starting from a given referent set. -/
def accEv (es : List (String × Refnt)) (acc : List Refnt) (l : String) : List Refnt :=
  es.foldl (fun a e => if e.1 = l then appendNoDup a e.2 else a) acc

theorem accEv_nil (acc : List Refnt) (l : String) : accEv [] acc l = acc := rfl

theorem accEv_cons (e : String × Refnt) (es : List (String × Refnt)) (acc : List Refnt)
    (l : String) :
    accEv (e :: es) acc l = accEv es (if e.1 = l then appendNoDup acc e.2 else acc) l := rfl

theorem labelThings_eq_accEv (root : DNode) (l : String) :
    labelThings root l = accEv (labelEvents root) [] l := rfl

theorem appendNoDup_ne_nil {α : Type} [DecidableEq α] (xs : List α) (x : α) :
    appendNoDup xs x ≠ [] := by
  unfold appendNoDup
  by_cases h : x ∈ xs
  · rw [if_pos h]
    intro he
    rw [he] at h
    exact absurd h (List.not_mem_nil x)
  · rw [if_neg h]
    simp

theorem accEv_no_match (es : List (String × Refnt)) (acc : List Refnt) (l : String)
    (h : ∀ e ∈ es, e.1 ≠ l) : accEv es acc l = acc := by
  induction es generalizing acc with
  | nil => rfl
  | cons e es ih =>
    rw [accEv_cons, if_neg (h e (List.mem_cons_self e es))]
    exact ih acc (fun e' he' => h e' (List.mem_cons_of_mem e he'))

theorem accEv_ne_nil (es : List (String × Refnt)) (acc : List Refnt) (l : String)
    (h : acc ≠ []) : accEv es acc l ≠ [] := by
  induction es generalizing acc with
  | nil => exact h
  | cons e es ih =>
    rw [accEv_cons]
    by_cases he : e.1 = l
    · rw [if_pos he]
      exact ih _ (appendNoDup_ne_nil acc e.2)
    · rw [if_neg he]
      exact ih _ h

theorem accEv_match_ne_nil (es : List (String × Refnt)) (l : String)
    (h : ¬ ∀ e ∈ es, e.1 ≠ l) : accEv es [] l ≠ [] := by
  induction es with
  | nil => exact absurd (fun e he => absurd he (List.not_mem_nil e)) h
  | cons e es ih =>
    rw [accEv_cons]
    by_cases he : e.1 = l
    · rw [if_pos he]
      exact accEv_ne_nil es _ l (appendNoDup_ne_nil [] e.2)
    · rw [if_neg he]
      apply ih
      intro hall
      apply h
      intro e' he'
      rcases List.mem_cons.mp he' with h1 | h2
      · subst h1
        exact he
      · exact hall e' h2

theorem lookupA_foldl_addThing (es : List (String × Refnt))
    (m : List (String × List Refnt)) (l : String) :
    lookupA (es.foldl (fun m e => addThing m e.1 e.2) m) l =
      if lookupA m l = none ∧ ∀ e ∈ es, e.1 ≠ l then none
      else some (accEv es ((lookupA m l).getD []) l) := by
  induction es generalizing m with
  | nil =>
    simp only [List.foldl_nil, accEv_nil]
    by_cases h : lookupA m l = none
    · rw [if_pos ⟨h, fun e he => absurd he (List.not_mem_nil e)⟩]
      exact h
    · rw [if_neg (fun hc => h hc.1)]
      cases hx : lookupA m l with
      | none => exact absurd hx h
      | some v => rfl
  | cons e es ih =>
    simp only [List.foldl_cons]
    rw [ih]
    by_cases he : e.1 = l
    · rw [he]
      rw [lookupA_addThing_self]
      rw [if_neg (fun hc => Option.noConfusion hc.1)]
      rw [if_neg (fun hc => hc.2 e (List.mem_cons_self e es) he)]
      rw [accEv_cons, if_pos he]
      rfl
    · rw [lookupA_addThing_ne m l e.1 e.2 he]
      have hiff : (∀ e' ∈ e :: es, e'.1 ≠ l) ↔ (∀ e' ∈ es, e'.1 ≠ l) := by
        constructor
        · intro hall e' he'
          exact hall e' (List.mem_cons_of_mem e he')
        · intro hall e' he'
          rcases List.mem_cons.mp he' with h1 | h2
          · subst h1
            exact he
          · exact hall e' h2
      by_cases hm2 : lookupA m l = none ∧ ∀ e' ∈ es, e'.1 ≠ l
      · rw [if_pos hm2, if_pos ⟨hm2.1, hiff.mpr hm2.2⟩]
      · rw [if_neg hm2, if_neg (fun hc => hm2 ⟨hc.1, hiff.mp hc.2⟩), accEv_cons, if_neg he]

theorem foldl_fst {α β γ : Type} (xs : List γ) (g : α → γ → α) (h : α × β → γ → β)
    (st : α × β) :
    (xs.foldl (fun st x => (g st.1 x, h st x)) st).1 = xs.foldl g st.1 := by
  induction xs generalizing st with
  | nil => rfl
  | cons x xs ih => exact ih _

theorem goProp_fst (path : NPath) (p : DProp)
    (st : List (String × List Refnt) × LabelMaps) :
    (collectLabels.goProp path p st).1 =
      (propEvents path p).foldl (fun m e => addThing m e.1 e.2) st.1 := by
  calc (collectLabels.goProp path p st).1
      = (p.offsetLabels.foldl
          (fun st lo => (addThing st.1 lo.1 (Refnt.propOff path p.name lo.2),
            { st.2 with
              label2propOffset := setAssoc st.2.label2propOffset lo.1 (path, p.name, lo.2) }))
          (p.labels.foldl
            (fun st l => (addThing st.1 l (Refnt.prop path p.name),
              { st.2 with label2prop := setAssoc st.2.label2prop l (path, p.name) })) st)).1 :=
        rfl
    _ = p.offsetLabels.foldl (fun t lo => addThing t lo.1 (Refnt.propOff path p.name lo.2))
          (p.labels.foldl
            (fun st l => (addThing st.1 l (Refnt.prop path p.name),
              { st.2 with label2prop := setAssoc st.2.label2prop l (path, p.name) })) st).1 :=
        foldl_fst p.offsetLabels
          (fun t lo => addThing t lo.1 (Refnt.propOff path p.name lo.2))
          (fun st lo => { st.2 with
            label2propOffset := setAssoc st.2.label2propOffset lo.1 (path, p.name, lo.2) })
          (p.labels.foldl
            (fun st l => (addThing st.1 l (Refnt.prop path p.name),
              { st.2 with label2prop := setAssoc st.2.label2prop l (path, p.name) })) st)
    _ = p.offsetLabels.foldl (fun t lo => addThing t lo.1 (Refnt.propOff path p.name lo.2))
          (p.labels.foldl (fun t l => addThing t l (Refnt.prop path p.name)) st.1) :=
        congrArg
          (fun z => p.offsetLabels.foldl
            (fun t lo => addThing t lo.1 (Refnt.propOff path p.name lo.2)) z)
          (foldl_fst p.labels
            (fun t l => addThing t l (Refnt.prop path p.name))
            (fun st l => { st.2 with label2prop := setAssoc st.2.label2prop l (path, p.name) })
            st)
    _ = (propEvents path p).foldl (fun m e => addThing m e.1 e.2) st.1 := by
        simp only [propEvents]
        rw [List.foldl_append, List.foldl_map, List.foldl_map]

theorem labelsFold_fst (path : NPath) (ls : List String)
    (st : List (String × List Refnt) × LabelMaps) :
    (ls.foldl (fun st l => (addThing st.1 l (Refnt.node path),
        { st.2 with label2node := setAssoc st.2.label2node l path })) st).1 =
      (ls.map (fun l => (l, Refnt.node path))).foldl (fun m e => addThing m e.1 e.2) st.1 := by
  rw [List.foldl_map]
  exact foldl_fst ls (fun t l => addThing t l (Refnt.node path))
    (fun st l => { st.2 with label2node := setAssoc st.2.label2node l path }) st

theorem propsFold_fst (path : NPath) (ps : List DProp)
    (st : List (String × List Refnt) × LabelMaps) :
    (ps.foldl (fun st p => collectLabels.goProp path p st) st).1 =
      (ps.flatMap (propEvents path)).foldl (fun m e => addThing m e.1 e.2) st.1 := by
  induction ps generalizing st with
  | nil => rfl
  | cons p ps ih =>
    simp only [List.foldl_cons, List.flatMap_cons, List.foldl_append]
    rw [ih, goProp_fst]

/-- One node of the _register_labels walk: its labels, then its
properties. -/
def nodeStep (path : NPath) (n : DNode)
    (st : List (String × List Refnt) × LabelMaps) :
    List (String × List Refnt) × LabelMaps :=
  n.props.foldl (fun st p => collectLabels.goProp path p st)
    (n.labels.foldl (fun st l => (addThing st.1 l (Refnt.node path),
      { st.2 with label2node := setAssoc st.2.label2node l path })) st)

theorem nodeStep_fst (path : NPath) (n : DNode)
    (st : List (String × List Refnt) × LabelMaps) :
    (nodeStep path n st).1 =
      (nodeEvents (path, n)).foldl (fun m e => addThing m e.1 e.2) st.1 := by
  unfold nodeStep
  rw [propsFold_fst, labelsFold_fst]
  simp only [nodeEvents]
  rw [List.foldl_append]

theorem go_fst (ns : List (NPath × DNode)) (things : List (String × List Refnt))
    (maps : LabelMaps) :
    (collectLabels.go ns things maps).1 =
      (ns.flatMap nodeEvents).foldl (fun m e => addThing m e.1 e.2) things := by
  induction ns generalizing things maps with
  | nil => rfl
  | cons pn rest ih =>
    obtain ⟨path, n⟩ := pn
    have hgo : collectLabels.go ((path, n) :: rest) things maps =
        collectLabels.go rest (nodeStep path n (things, maps)).1
          (nodeStep path n (things, maps)).2 := rfl
    rw [hgo, ih, nodeStep_fst, List.flatMap_cons, List.foldl_append]

theorem collectLabels_fst (root : DNode) :
    (collectLabels root).1 =
      (labelEvents root).foldl (fun m e => addThing m e.1 e.2) [] := by
  unfold collectLabels labelEvents
  exact go_fst (nodeIterPaths root []) [] ⟨[], [], []⟩

/-- MAIN characterization: the label2things map built by the walk holds
exactly the spec-level referent list of each label that occurs. -/
theorem lookupA_labelThings (root : DNode) (l : String) :
    lookupA (collectLabels root).1 l =
      if labelThings root l = [] then none else some (labelThings root l) := by
  rw [collectLabels_fst, lookupA_foldl_addThing]
  have h0 : lookupA ([] : List (String × List Refnt)) l = none := rfl
  by_cases hm : ∀ e ∈ labelEvents root, e.1 ≠ l
  · have hnil : labelThings root l = [] :=
      (labelThings_eq_accEv root l).trans (accEv_no_match _ _ _ hm)
    rw [if_pos ⟨h0, hm⟩, if_pos hnil]
  · have hnn : labelThings root l ≠ [] := fun hnil =>
      accEv_match_ne_nil (labelEvents root) l hm (labelThings_eq_accEv root l ▸ hnil)
    rw [if_neg (fun hc => hm hc.2), if_neg hnn]
    rfl

/-- Distinctness of the keys of an association list. -/
def keysU {β : Type} (m : List (String × β)) : Prop :=
  (m.map (fun kv => kv.1)).Nodup

theorem keysU_nil {β : Type} : keysU ([] : List (String × β)) := List.nodup_nil

theorem keysU_setAssoc {β : Type} (m : List (String × β)) (k : String) (v : β)
    (h : keysU m) : keysU (setAssoc m k v) := by
  unfold setAssoc
  by_cases hf : (m.find? (fun kv => kv.1 = k)).isSome
  · rw [if_pos hf]
    have hmap : (m.map (fun kv => if kv.1 = k then (k, v) else kv)).map (fun kv => kv.1)
        = m.map (fun kv => kv.1) := by
      rw [List.map_map]
      apply List.map_congr_left
      intro kv _
      by_cases hk : kv.1 = k
      · simp [hk]
      · simp [hk]
    unfold keysU
    rw [hmap]
    exact h
  · rw [if_neg hf]
    unfold keysU
    rw [List.map_append, List.nodup_append]
    refine ⟨h, by simp, fun a ha hb => ?_⟩
    simp only [List.map_cons, List.map_nil, List.mem_singleton] at hb
    subst hb
    obtain ⟨kv, hkv, hq⟩ := List.mem_map.mp ha
    have hnp := List.find?_eq_none.mp (Option.not_isSome_iff_eq_none.mp hf) kv hkv
    simp at hnp
    exact hnp hq

theorem keysU_addThing (m : List (String × List Refnt)) (l : String) (r : Refnt)
    (h : keysU m) : keysU (addThing m l r) := by
  unfold addThing
  cases hf : m.find? (fun kv => kv.1 = l) with
  | some kv => exact keysU_setAssoc m l _ h
  | none =>
    unfold keysU
    rw [List.map_append, List.nodup_append]
    refine ⟨h, by simp, fun a ha hb => ?_⟩
    simp only [List.map_cons, List.map_nil, List.mem_singleton] at hb
    subst hb
    obtain ⟨kv, hkv, hq⟩ := List.mem_map.mp ha
    have hnp := List.find?_eq_none.mp hf kv hkv
    simp at hnp
    exact hnp hq

theorem keysU_foldl_addThing (es : List (String × Refnt))
    (m : List (String × List Refnt)) (h : keysU m) :
    keysU (es.foldl (fun m e => addThing m e.1 e.2) m) := by
  induction es generalizing m with
  | nil => exact h
  | cons e es ih =>
    simp only [List.foldl_cons]
    exact ih _ (keysU_addThing m e.1 e.2 h)

theorem lookupA_of_mem {β : Type} (m : List (String × β)) (kv : String × β)
    (h : keysU m) (hm : kv ∈ m) : lookupA m kv.1 = some kv.2 := by
  induction m with
  | nil => exact absurd hm (List.not_mem_nil kv)
  | cons hd t ih =>
    rcases List.mem_cons.mp hm with h1 | h2
    · subst h1
      exact lookupA_cons_self kv.1 kv.2 t
    · unfold keysU at h
      rw [List.map_cons] at h
      have hcons := List.nodup_cons.mp h
      have hne : hd.1 ≠ kv.1 := fun he =>
        hcons.1 (by rw [he]; exact List.mem_map.mpr ⟨kv, h2, rfl⟩)
      have hstep : lookupA (hd :: t) kv.1 = lookupA t kv.1 :=
        lookupA_cons_ne kv.1 hd.1 hd.2 t hne
      rw [hstep]
      exact ih hcons.2 h2

theorem registerLabels_eq (root : DNode) :
    registerLabels root =
      match (collectLabels root).1.find? (fun kv => kv.2.length > 1) with
      | some kv => Except.error (.dt ("Label '" ++ kv.1 ++ "' appears " ++
          joinSep " and "
            (insertionSortBy (fun a b => decide (a ≤ b)) (kv.2.map refntDescr))))
      | none => Except.ok (dedupTreeOffsets root, (collectLabels root).2) := rfl

/-- C7: after the final tree is built, label registration fails exactly
when some label (node label, property label, or in-value offset label)
carries more than one distinct referent, and then the fatal error names
such a label and lists every location carrying it, with the location
descriptions sorted; when no label has more than one referent, label
registration succeeds. -/
theorem c7_duplicate_labels (root : DNode) :
    ((∀ l ∈ (labelEvents root).map (fun e => e.1), (labelThings root l).length ≤ 1) →
      registerLabels root = .ok (dedupTreeOffsets root, (collectLabels root).2)) ∧
    (∀ l, 1 < (labelThings root l).length →
      ∃ l', 1 < (labelThings root l').length ∧
        registerLabels root = .error (.dt ("Label '" ++ l' ++ "' appears " ++
          joinSep " and " (insertionSortBy (fun a b => decide (a ≤ b))
            ((labelThings root l').map refntDescr))))) := by
  have hkeys : keysU (collectLabels root).1 := by
    rw [collectLabels_fst]
    exact keysU_foldl_addThing _ _ keysU_nil
  have hmem : ∀ kv ∈ (collectLabels root).1, labelThings root kv.1 = kv.2 := by
    intro kv hkv
    have hl := lookupA_of_mem _ kv hkeys hkv
    rw [lookupA_labelThings] at hl
    by_cases hnil : labelThings root kv.1 = []
    · rw [if_pos hnil] at hl
      exact Option.noConfusion hl
    · rw [if_neg hnil] at hl
      exact Option.some.inj hl
  constructor
  · intro hall
    have hnone : (collectLabels root).1.find? (fun kv => kv.2.length > 1) = none := by
      rw [List.find?_eq_none]
      intro kv hkv
      have hth : labelThings root kv.1 = kv.2 := hmem kv hkv
      simp only [gt_iff_lt, decide_eq_true_eq]
      intro hgt
      have hne : labelThings root kv.1 ≠ [] := by
        rw [hth]
        intro h0
        rw [h0] at hgt
        simp at hgt
      have hkey : kv.1 ∈ (labelEvents root).map (fun e => e.1) := by
        by_contra hnk
        apply hne
        rw [labelThings_eq_accEv]
        apply accEv_no_match
        intro e he hlq
        exact hnk (hlq ▸ List.mem_map.mpr ⟨e, he, rfl⟩)
      have hle := hall kv.1 hkey
      rw [hth] at hle
      omega
    rw [registerLabels_eq, hnone]
  · intro l hl
    cases hf : (collectLabels root).1.find? (fun kv => kv.2.length > 1) with
    | none =>
      exfalso
      have hne : labelThings root l ≠ [] := by
        intro h0
        rw [h0] at hl
        simp at hl
      have hlk : lookupA (collectLabels root).1 l = some (labelThings root l) := by
        rw [lookupA_labelThings, if_neg hne]
      unfold lookupA at hlk
      cases hq : (collectLabels root).1.find? (fun kv => kv.1 = l) with
      | none =>
        rw [hq] at hlk
        simp at hlk
      | some kv =>
        rw [hq] at hlk
        have hkv2 : kv.2 = labelThings root l := by
          have hi : some kv.2 = some (labelThings root l) := hlk
          exact Option.some.inj hi
        have hmemk : kv ∈ (collectLabels root).1 := List.mem_of_find?_eq_some hq
        have hnp := List.find?_eq_none.mp hf kv hmemk
        simp only [gt_iff_lt, decide_eq_true_eq] at hnp
        rw [hkv2] at hnp
        exact hnp hl
    | some kv =>
      have hmemk : kv ∈ (collectLabels root).1 := List.mem_of_find?_eq_some hf
      have hth : labelThings root kv.1 = kv.2 := hmem kv hmemk
      refine ⟨kv.1, ?_, ?_⟩
      · have hp := List.find?_some hf
        simp only [gt_iff_lt, decide_eq_true_eq] at hp
        rw [hth]
        exact hp
      · rw [registerLabels_eq, hf, hth]

/-- A tree whose label foo sits on two distinct nodes. -/
def c7DupRoot : DNode :=
  .mk "/" [] [] [.mk "a" ["foo"] [] [] false false,
    .mk "b" ["foo"] [] [] false false] false false

/-- A tree whose labels are all unique. -/
def c7OkRoot : DNode :=
  .mk "/" [] [] [.mk "a" ["foo"] [] [] false false,
    .mk "b" ["bar"] [] [] false false] false false

theorem c7_duplicate_labels_witness :
    (∃ l', 1 < (labelThings c7DupRoot l').length ∧
      registerLabels c7DupRoot = .error (.dt ("Label '" ++ l' ++ "' appears " ++
        joinSep " and " (insertionSortBy (fun a b => decide (a ≤ b))
          ((labelThings c7DupRoot l').map refntDescr))))) ∧
    registerLabels c7OkRoot = .ok (dedupTreeOffsets c7OkRoot, (collectLabels c7OkRoot).2) :=
  ⟨(c7_duplicate_labels c7DupRoot).2 "foo" (by with_unfolding_all decide),
   (c7_duplicate_labels c7OkRoot).1 (by with_unfolding_all decide)⟩

/-! Claim C8: the phandle allocator of _node_phandle. -/

theorem findUnused_mem_of_lt (keys : List Nat) (fuel : Nat) :
    ∀ i m, i ≤ m → m < findUnused keys fuel i → m ∈ keys := by
  induction fuel with
  | zero =>
    intro i m him hlt
    simp only [findUnused] at hlt
    omega
  | succ fuel ih =>
    intro i m him hlt
    simp only [findUnused] at hlt
    by_cases hi : i ∈ keys
    · rw [if_pos hi] at hlt
      by_cases hmi : m = i
      · subst hmi
        exact hi
      · exact ih (i + 1) m (by omega) hlt
    · rw [if_neg hi] at hlt
      omega

theorem findUnused_ge (keys : List Nat) (fuel : Nat) :
    ∀ i, i ≤ findUnused keys fuel i := by
  induction fuel with
  | zero =>
    intro i
    simp [findUnused]
  | succ fuel ih =>
    intro i
    simp only [findUnused]
    by_cases hi : i ∈ keys
    · rw [if_pos hi]
      have := ih (i + 1)
      omega
    · rw [if_neg hi]

theorem findUnused_exhaust (keys : List Nat) (fuel : Nat) :
    ∀ i, findUnused keys fuel i ∉ keys ∨ findUnused keys fuel i = i + fuel := by
  induction fuel with
  | zero =>
    intro i
    right
    simp [findUnused]
  | succ fuel ih =>
    intro i
    by_cases hi : i ∈ keys
    · have h1 : findUnused keys (fuel + 1) i = findUnused keys fuel (i + 1) := by
        simp only [findUnused, if_pos hi]
      rw [h1]
      rcases ih (i + 1) with h | h
      · left
        exact h
      · right
        rw [h]
        omega
    · left
      simp only [findUnused, if_neg hi]
      exact hi

theorem findUnused_fresh (keys : List Nat) (i : Nat) :
    findUnused keys (keys.length + 1) i ∉ keys := by
  intro hmem
  rcases findUnused_exhaust keys (keys.length + 1) i with h | h
  · exact h hmem
  · have hsub : List.range' i (keys.length + 1) ⊆ keys := by
      intro m hm
      rw [List.mem_range'_1] at hm
      exact findUnused_mem_of_lt keys (keys.length + 1) i m hm.1 (by omega)
    have hnd : (List.range' i (keys.length + 1)).Nodup := List.nodup_range' i (keys.length + 1)
    have hle := (hnd.subperm hsub).length_le
    rw [List.length_range'] at hle
    omega

theorem findUnused_range_full (n : Nat) :
    findUnused (List.range' 1 n) (n + 1) 1 = n + 1 := by
  have hlen : (List.range' 1 n).length = n := by simp
  have hfresh : findUnused (List.range' 1 n) (n + 1) 1 ∉ List.range' 1 n := by
    have h := findUnused_fresh (List.range' 1 n) 1
    rw [hlen] at h
    exact h
  have hge : 1 ≤ findUnused (List.range' 1 n) (n + 1) 1 :=
    findUnused_ge (List.range' 1 n) (n + 1) 1
  by_cases hle : findUnused (List.range' 1 n) (n + 1) 1 ≤ n
  · exact absurd (List.mem_range'_1.mpr ⟨hge, by omega⟩) hfresh
  · by_cases hgt : n + 1 < findUnused (List.range' 1 n) (n + 1) 1
    · have hin := findUnused_mem_of_lt (List.range' 1 n) (n + 1) 1 (n + 1) (by omega) hgt
      rw [List.mem_range'_1] at hin
      omega
    · omega

/-- A phandle map in which every value 1 … n is taken. -/
def c8Ph (n : Nat) : List (Nat × NPath) :=
  (List.range' 1 n).map (fun k => (k, ([] : NPath)))

theorem c8Ph_keys (n : Nat) : (c8Ph n).map (fun kv => kv.1) = List.range' 1 n := by
  unfold c8Ph
  rw [List.map_map]
  calc (List.range' 1 n).map ((fun kv : Nat × NPath => kv.1) ∘ (fun k => (k, ([] : NPath))))
      = (List.range' 1 n).map id := List.map_congr_left (fun a _ => rfl)
    _ = List.range' 1 n := List.map_id _

theorem c8Ph_length (n : Nat) : (c8Ph n).length = n := by
  unfold c8Ph
  rw [List.length_map, List.length_range']

/-- C8: when the fixup needs a phandle for a node that has none, it
indeed allocates the smallest positive value not already used anywhere
(first conjunct, confirming the allocation rule), but the allocator does
not skip the reserved value 0xFFFFFFFF: with phandles 1 … 0xFFFFFFFE all
taken it allocates and registers exactly 0xFFFFFFFF (second conjunct),
so a successful parse can leave 0xFFFFFFFF in phandle2node, breaking the
claimed invariant. -/
theorem c8_phandle_invariant_code_bug :
    (∀ (t : DNode) (ph : List (Nat × NPath)) (refPath : NPath) (node : DNode)
        (bytes : List Nat) (t' : DNode) (ph' : List (Nat × NPath)),
      getAtPath t refPath = some node →
      getPropN node "phandle" = none →
      nodePhandle t ph refPath = .ok (bytes, t', ph') →
      ∃ k, bytes = natToBytes k 4 ∧ ph' = ph ++ [(k, refPath)] ∧
        k ∉ ph.map (fun kv => kv.1) ∧ 1 ≤ k ∧
        ∀ m, 1 ≤ m → m < k → m ∈ ph.map (fun kv => kv.1)) ∧
    nodePhandle (newNode "/") (c8Ph 0xFFFFFFFE) [] =
      .ok (natToBytes 0xFFFFFFFF 4,
        modifyAtPath (fun n => setPropN n
          ⟨"phandle", natToBytes 0xFFFFFFFF 4, [], [], []⟩) (newNode "/") [],
        c8Ph 0xFFFFFFFE ++ [(0xFFFFFFFF, [])]) := by
  have hred : ∀ (t : DNode) (ph : List (Nat × NPath)) (refPath : NPath) (node : DNode),
      getAtPath t refPath = some node →
      getPropN node "phandle" = none →
      nodePhandle t ph refPath =
        .ok (natToBytes (findUnused (ph.map (fun kv => kv.1)) (ph.length + 1) 1) 4,
          modifyAtPath (fun n => setPropN n
            ⟨"phandle", natToBytes (findUnused (ph.map (fun kv => kv.1)) (ph.length + 1) 1) 4,
              [], [], []⟩) t refPath,
          ph ++ [(findUnused (ph.map (fun kv => kv.1)) (ph.length + 1) 1, refPath)]) := by
    intro t ph refPath node hget hnone
    simp only [nodePhandle, hget, hnone, Option.getD_none, if_true]
  constructor
  · intro t ph refPath node bytes t' ph' hget hnone hok
    rw [hred t ph refPath node hget hnone] at hok
    have h3 := Except.ok.inj hok
    simp only [Prod.mk.injEq] at h3
    refine ⟨findUnused (ph.map (fun kv => kv.1)) (ph.length + 1) 1,
      h3.1.symm, h3.2.2.symm, ?_, findUnused_ge _ _ 1, ?_⟩
    · have h := findUnused_fresh (ph.map (fun kv => kv.1)) 1
      rw [List.length_map] at h
      exact h
    · intro m h1 h2
      exact findUnused_mem_of_lt _ _ 1 m h1 h2
  · have hget : getAtPath (newNode "/") [] = some (newNode "/") := rfl
    have hnone : getPropN (newNode "/") "phandle" = none := rfl
    rw [hred (newNode "/") (c8Ph 0xFFFFFFFE) [] (newNode "/") hget hnone]
    have hk : findUnused ((c8Ph 0xFFFFFFFE).map (fun kv => kv.1))
        ((c8Ph 0xFFFFFFFE).length + 1) 1 = 0xFFFFFFFF := by
      rw [c8Ph_keys, c8Ph_length]
      exact findUnused_range_full 0xFFFFFFFE
    rw [hk]

theorem c8_phandle_invariant_witness :
    ∃ k, ([0, 0, 0, 1] : List Nat) = natToBytes k 4 ∧
      ([(1, ([] : NPath))] : List (Nat × NPath)) = [] ++ [(k, ([] : NPath))] ∧
      k ∉ ([] : List (Nat × NPath)).map (fun kv => kv.1) ∧ 1 ≤ k ∧
      ∀ m, 1 ≤ m → m < k → m ∈ ([] : List (Nat × NPath)).map (fun kv => kv.1) :=
  c8_phandle_invariant_code_bug.1 (newNode "/") [] [] (newNode "/") [0, 0, 0, 1]
    (DNode.mk "/" [] [⟨"phandle", [0, 0, 0, 1], [], [], []⟩] [] false false) [(1, [])]
    rfl rfl (by with_unfolding_all rfl)

/-! Claim C5: a Phandle marker inside a phandle property must target the
owning node itself. -/

theorem firstPhandleSelfRef_split (root : DNode) (path : NPath) (nm : String)
    (pre : List (Nat × String × MarkT)) (pos : Nat) (ref : String)
    (rest : List (Nat × String × MarkT)) (p : NPath)
    (hpre : ∀ m ∈ pre, m.2.2 ≠ MarkT.phandle)
    (hres : resolveRefPath root ref = .ok p) :
    firstPhandleSelfRef root path nm (pre ++ (pos, ref, MarkT.phandle) :: rest) =
      if p = path then .ok true
      else .error (.dt (pathStr path ++ ": " ++ nm ++ " refers to another node")) := by
  induction pre with
  | nil =>
    simp only [List.nil_append, firstPhandleSelfRef, hres, if_true]
  | cons m pre ih =>
    obtain ⟨a, b, t⟩ := m
    have ht : t ≠ MarkT.phandle := hpre (a, b, t) (List.mem_cons_self _ _)
    simp only [List.cons_append, firstPhandleSelfRef, if_neg ht]
    exact ih (fun m hm => hpre m (List.mem_cons_of_mem _ hm))

/-- The self-referential phandle property of the fixtures below: a
4-byte placeholder carrying one Phandle marker for the braced path
reference to /x. -/
def c5Prop : DProp := ⟨"phandle", [0, 0, 0, 0], [], [], [(0, "\x7b/x\x7d", MarkT.phandle)]⟩

/-- The node /x owning that property. -/
def c5Node : DNode := DNode.mk "x" [] [c5Prop] [] false false

/-- A root with /x as its only child. -/
def c5Root : DNode := DNode.mk "/" [] [] [c5Node] false false

/-- A file whose phandle property references its own node. -/
def c5SelfInput : String :=
  "/dts-v1/;\n\n/ \x7b x \x7b phandle = < &\x7b/x\x7d >; \x7d; \x7d;\n"

/-- A file whose phandle property references a different node. -/
def c5OtherInput : String :=
  "/dts-v1/;\n\n/ \x7b x \x7b phandle = < &\x7b/y\x7d >; \x7d; y \x7b \x7d; \x7d;\n"

/-- C5: in the phandle registration pass, a phandle property whose first
Phandle marker resolves to another node is rejected as referring to
another node, while a marker resolving to the owning node itself passes
the check with no registration (first conjunct pair); concretely, a
self-referential phandle parses successfully and the fixup allocates
phandle 1 for the node, while the same file pointing the marker at a
sibling fails with the refers-to-another-node error (remaining
conjuncts). -/
theorem c5_phandle_self_reference (root : DNode) (path : NPath) (node : DNode)
    (ph : List (Nat × NPath)) (prop : DProp)
    (pre rest : List (Nat × String × MarkT)) (pos : Nat) (ref : String) (p : NPath)
    (hprop : getPropN node "phandle" = some prop)
    (hlen : prop.value.length = 4)
    (hmark : prop.markers = pre ++ (pos, ref, MarkT.phandle) :: rest)
    (hpre : ∀ m ∈ pre, m.2.2 ≠ MarkT.phandle)
    (hres : resolveRefPath root ref = .ok p) :
    ((p ≠ path → checkPhandle root path node ph =
        .error (.dt (pathStr path ++ ": " ++ prop.name ++ " refers to another node"))) ∧
      (p = path → checkPhandle root path node ph = .ok ph)) ∧
    ((parseDTS 2000 noFiles "input.dts" c5SelfInput).map (fun d =>
        (((getAtPath d.root ["x"]).bind (fun n => getPropN n "phandle")).map
          (fun q => q.value), d.phandle2node)) =
      .ok (some [0, 0, 0, 1], [(1, ["x"])])) ∧
    parseDTS 2000 noFiles "input.dts" c5OtherInput =
      .error (.dt "/x: phandle refers to another node") := by
  have hsplit := firstPhandleSelfRef_split root path prop.name pre pos ref rest p hpre hres
  rw [← hmark] at hsplit
  refine ⟨⟨?_, ?_⟩, ?_, ?_⟩
  · intro hne
    rw [if_neg hne] at hsplit
    simp only [checkPhandle, hprop, hlen]
    rw [if_neg (fun h => h rfl), hsplit]
    rfl
  · intro hp
    rw [if_pos hp] at hsplit
    simp only [checkPhandle, hprop, hlen]
    rw [if_neg (fun h => h rfl), hsplit]
    rfl
  · with_unfolding_all rfl
  · with_unfolding_all rfl

theorem c5_phandle_self_reference_witness :
    checkPhandle c5Root ["x"] c5Node [] = .ok [] ∧
    checkPhandle c5Root ["y"] c5Node [] =
      .error (.dt "/y: phandle refers to another node") :=
  ⟨(c5_phandle_self_reference c5Root ["x"] c5Node [] c5Prop [] [] 0 "\x7b/x\x7d" ["x"]
      rfl rfl rfl (by simp) rfl).1.2 rfl,
   (c5_phandle_self_reference c5Root ["y"] c5Node [] c5Prop [] [] 0 "\x7b/x\x7d" ["x"]
      rfl rfl rfl (by simp) rfl).1.1 (by decide)⟩

/-! Claim C4: reopening a node is additive; reassigning a property
replaces its previous value and markers. -/

/-- The same node opened twice with disjoint properties and subnodes. -/
def c4UnionInput : String :=
  "/dts-v1/;\n\n/ \x7b n \x7b a = <1>; c1 \x7b \x7d; \x7d; n \x7b b = <2>; c2 \x7b \x7d; \x7d; \x7d;\n"

/-- The same property assigned twice in two bodies of the node. -/
def c4LastInput : String :=
  "/dts-v1/;\n\n/ \x7b n \x7b a = <1>; \x7d; n \x7b a = <2>; \x7d; \x7d;\n"

/-- The node reopened through a braced path reference at top level. -/
def c4RefInput : String :=
  "/dts-v1/;\n\n/ \x7b n \x7b a = <1>; \x7d; \x7d;\n&\x7b/n\x7d \x7b b = <2>; \x7d;\n"

/-- A node with one labelled property, for the witness. -/
def c4Node : DNode := DNode.mk "n" [] [⟨"a", [1], ["l1"], [], []⟩] [] false false

set_option maxHeartbeats 4000000 in
/-- C4: _parse_assignment discards the property's previous value and
pending markers, so a repeated assignment keeps only the later one
(first conjunct); _node_prop returns the existing property unchanged
when the name exists, and appends a fresh empty property otherwise, so
reopening never drops existing state (second and third conjuncts);
end to end, reopening the same node twice with disjoint contents yields
the union of properties and subnodes, a repeated property name keeps
only the later value in place, and reopening through a top-level path
reference is additive the same way (remaining conjuncts). -/
theorem c4_reopen_additive :
    (∀ (fuel : Nat) (ctx : PCtx) (prop : DProp) (v v' : List Nat)
        (m m' : List (Nat × String × MarkT)) (ts : List Tok),
      parseAssignment fuel ctx { prop with value := v, markers := m } ts =
        parseAssignment fuel ctx { prop with value := v', markers := m' } ts) ∧
    (∀ (node : DNode) (s : String) (p : DProp), getPropN node s = some p →
      nodeProp node s = .ok (p, node)) ∧
    (∀ (node : DNode) (s : String), getPropN node s = none →
      s.data.contains '@' = false →
      nodeProp node s = .ok (⟨s, [], [], [], []⟩, setPropN node ⟨s, [], [], [], []⟩)) ∧
    ((parseDTS 2000 noFiles "input.dts" c4UnionInput).map (fun d =>
        (getAtPath d.root ["n"]).map (fun n =>
          (n.props.map (fun p => (p.name, p.value)), n.children.map (fun c => c.name)))) =
      .ok (some ([("a", [0, 0, 0, 1]), ("b", [0, 0, 0, 2])], ["c1", "c2"]))) ∧
    ((parseDTS 2000 noFiles "input.dts" c4LastInput).map (fun d =>
        (getAtPath d.root ["n"]).map (fun n => n.props.map (fun p => (p.name, p.value)))) =
      .ok (some [("a", [0, 0, 0, 2])])) ∧
    ((parseDTS 2000 noFiles "input.dts" c4RefInput).map (fun d =>
        (getAtPath d.root ["n"]).map (fun n => n.props.map (fun p => (p.name, p.value)))) =
      .ok (some [("a", [0, 0, 0, 1]), ("b", [0, 0, 0, 2])])) := by
  refine ⟨?_, ?_, ?_, ?_, ?_, ?_⟩
  · intro fuel ctx prop v v' m m' ts
    cases fuel with
    | zero => rfl
    | succ fuel => rfl
  · intro node s p h
    simp only [nodeProp, h]
  · intro node s h hc
    simp only [nodeProp, h, hc, Bool.false_eq_true, if_false]
  · with_unfolding_all rfl
  · with_unfolding_all rfl
  · with_unfolding_all rfl

theorem c4_reopen_additive_witness :
    (parseAssignment 5 ⟨fun _ => none⟩
        ⟨"a", [9], [], [], [(0, "r", MarkT.path)]⟩ [.str "hi", .misc ";"] =
      parseAssignment 5 ⟨fun _ => none⟩
        ⟨"a", [], [], [], []⟩ [.str "hi", .misc ";"]) ∧
    nodeProp c4Node "a" = .ok (⟨"a", [1], ["l1"], [], []⟩, c4Node) ∧
    nodeProp c4Node "b" = .ok (⟨"b", [], [], [], []⟩, setPropN c4Node ⟨"b", [], [], [], []⟩) :=
  ⟨c4_reopen_additive.1 5 ⟨fun _ => none⟩ ⟨"a", [], [], [], []⟩ [9] []
      [(0, "r", MarkT.path)] [] [.str "hi", .misc ";"],
   c4_reopen_additive.2.1 c4Node "a" ⟨"a", [1], ["l1"], [], []⟩ rfl,
   c4_reopen_additive.2.2.1 c4Node "b" rfl rfl⟩

end Dt
